import Mathlib

/-!
# Worksite Management Studio: the worker and project controllers

A shallow embedding of `backend/controller/worker_controller.go` and
`backend/controller/project_controller.go`.

* Go `uint` values are `Nat`, Go `int` values are `Int`; the two parsers that
  produce them (`strconv.ParseUint(s, 10, 32)` and `strconv.Atoi`) carry their
  range checks explicitly (`int` is taken to be 64 bits wide).
* A handler is a function of the controller (its repository and validator) and
  of the request context. It returns the reply it sends together with the list
  of repository calls it made, in order.
* The repository, the validator and the request binder are collaborators that
  live outside the two controller files: they are parameters of the model.
-/

namespace Worksite

/-! ## Values shared by both controllers -/

deriving instance DecidableEq for Except

/-- Go `error` value as the controllers observe it: only `err.Error()` is read. -/
structure GoError where
  msg : String
deriving DecidableEq, Repr

/-- Modelled from the spec: the `model.Worker` record (its declaration is outside
the controller files). The controllers read and write `ID` and `UserID` only;
the other fields are the ones section 3 of the specification lists. -/
structure Worker where
  ID : Nat
  Name : String
  Position : String
  Age : Int
  Salary : Int
  UserID : Nat
deriving DecidableEq, Repr

/-- Modelled from the spec: the `model.Project` record (its declaration is outside
the controller files). The controllers use `ID`, `UserID` and `Workers`; the
other fields follow section 3 of the specification, with the two coordinates
kept as integers (micro-degrees) since no handler computes with them. -/
structure Project where
  ID : Nat
  Name : String
  Status : String
  StartDate : String
  EndDate : String
  Latitude : Int
  Longitude : Int
  UserID : Nat
  Workers : List Worker
deriving DecidableEq, Repr

/-- The dynamic values `echo.Context.Get` can hand back (an `interface{}`):
the tag is the dynamic type a type assertion looks at. -/
inductive CtxValue where
  | uintV (n : Nat)
  | intV (i : Int)
  | stringV (s : String)
  | boolV (b : Bool)
  | otherV (typeName : String)
deriving DecidableEq, Repr

/-- The values stored in a filter map (`map[string]interface{}`): the handlers
store query strings and parsed integers. -/
inductive FilterValue where
  | str (s : String)
  | int (i : Int)
deriving DecidableEq, Repr

/-- The filter map `map[string]interface{}`, as an association list in
insertion order with at most one entry per key. -/
abbrev Filters := List (String × FilterValue)

/-- Lookup `filters[key]`. -/
def Filters.get (m : Filters) (key : String) : Option FilterValue :=
  match m.find? (fun e => e.1 == key) with
  | some e => some e.2
  | none => none

/-- Assignment `filters[key] = v`: replaces the entry of `key` if there is one. -/
def Filters.set (m : Filters) (key : String) (v : FilterValue) : Filters :=
  m.filter (fun e => !(e.1 == key)) ++ [(key, v)]

/-! ## The request context -/

/-- The part of `echo.Context` the handlers read. `BindWorker`, `BindProject`
and `BindWorkerId` are what `ctx.Bind` yields for this request when the target
is a `model.Worker`, a `model.Project` or the `workerId` request struct (the
binder is part of the web framework). -/
structure Context where
  values : List (String × CtxValue)
  query : List (String × String)
  params : List (String × String)
  BindWorker : Except GoError Worker
  BindProject : Except GoError Project
  BindWorkerId : Except GoError Nat

/-- The call `ctx.Get(key)`: the stored value, or nil (`none`). -/
def Context.Get (ctx : Context) (key : String) : Option CtxValue :=
  match ctx.values.find? (fun e => e.1 == key) with
  | some e => some e.2
  | none => none

/-- The call `ctx.QueryParam(name)`: the first value of the parameter, or the
empty string when the parameter is absent. -/
def Context.QueryParam (ctx : Context) (name : String) : String :=
  match ctx.query.find? (fun e => e.1 == name) with
  | some e => e.2
  | none => ""

/-- The call `ctx.Param(name)`: the path parameter, or the empty string. -/
def Context.Param (ctx : Context) (name : String) : String :=
  match ctx.params.find? (fun e => e.1 == name) with
  | some e => e.2
  | none => ""

/-! ## `strconv` -/

/-- The two failures of the `strconv` parsers. -/
inductive NumError where
  | ErrSyntax
  | ErrRange
deriving DecidableEq, Repr

/-- Value of one decimal digit, `none` for any other character (in base 10
`strconv` refuses letters, underscores and every other byte). -/
def digitValue (c : Char) : Option Nat :=
  if '0' ≤ c ∧ c ≤ '9' then some (c.toNat - '0'.toNat) else none

/-- Width of the Go `int` type (`strconv.IntSize`). -/
def intSize : Nat := 64

/-- Largest `uint64`. -/
def maxUint64 : Nat := 2 ^ 64 - 1

/-- The digit loop of `strconv.ParseUint` in base 10, from the value `n` read
so far: a character that is not a digit is a syntax error, a value that leaves
`uint64` or exceeds `maxVal` is a range error, whichever comes first. -/
def uintLoop (maxVal : Nat) (n : Nat) : List Char → Except NumError Nat
  | [] => .ok n
  | c :: cs =>
    match digitValue c with
    | none => .error .ErrSyntax
    | some d =>
      if n ≥ maxUint64 / 10 + 1 then .error .ErrRange
      else
        let n1 := n * 10 + d
        if n1 > maxUint64 ∨ n1 > maxVal then .error .ErrRange
        else uintLoop maxVal n1 cs

/-- The call `strconv.ParseUint(s, 10, bitSize)`, for `bitSize` from 0 to 64
(0 stands for the width of `int`). -/
def ParseUint (s : String) (bitSize : Nat) : Except NumError Nat :=
  if s = "" then .error .ErrSyntax
  else
    let bitSize := if bitSize = 0 then intSize else bitSize
    uintLoop (2 ^ bitSize - 1) 0 s.toList

/-- Largest `int`. -/
def maxInt : Int := 2 ^ (intSize - 1) - 1

/-- Smallest `int`. -/
def minInt : Int := -(2 ^ (intSize - 1))

/-- The call `strconv.ParseInt(s, 10, 0)`: a leading sign is picked off, the
rest goes through `ParseUint`, and the value has to fit in an `int`. -/
def ParseInt (s : String) : Except NumError Int :=
  match s.toList with
  | [] => .error .ErrSyntax
  | c :: rest =>
    let neg := c = '-'
    let digits := if c = '+' ∨ c = '-' then rest else c :: rest
    match ParseUint (String.mk digits) 0 with
    | .error err => .error err
    | .ok un =>
      let cutoff : Nat := 2 ^ (intSize - 1)
      if ¬ neg ∧ un ≥ cutoff then .error .ErrRange
      else if neg ∧ un > cutoff then .error .ErrRange
      else if neg then .ok (-(un : Int)) else .ok (un : Int)

/-- The call `strconv.Atoi(s)`. Its fast path for short strings computes what
`ParseInt(s, 10, 0)` computes, the call it makes for the other strings. -/
def Atoi (s : String) : Except NumError Int :=
  ParseInt s

/-! ## Replies -/

def StatusOK : Nat := 200
def StatusCreated : Nat := 201
def StatusNoContent : Nat := 204
def StatusBadRequest : Nat := 400
def StatusUnauthorized : Nat := 401
def StatusNotFound : Nat := 404
def StatusInternalServerError : Nat := 500

/-- The JSON documents the handlers send. -/
inductive Body where
  | error (msg : String)
  | worker (w : Worker)
  | project (p : Project)
  | workerPage (data : List Worker) (total page pageSize : Int)
  | projectPage (data : List Project) (total page pageSize : Int)
deriving DecidableEq, Repr

/-- What a handler returns: an `echo.HTTPError` handed back as the Go error, a
JSON reply (`ctx.JSON`), or an empty reply (`ctx.NoContent`). -/
inductive Reply where
  | httpError (code : Nat) (message : String)
  | json (code : Nat) (body : Body)
  | noContent (code : Nat)
deriving DecidableEq, Repr

/-- The status code a reply carries. -/
def Reply.status : Reply → Nat
  | .httpError code _ => code
  | .json code _ => code
  | .noContent code => code

/-- A reply together with the repository calls made to produce it. -/
structure Result (κ : Type) where
  reply : Reply
  calls : List κ
deriving DecidableEq, Repr

/-- The function `getUserID`: the `uint` stored under `"user_id"`, or zero and
an Unauthorized error. -/
def getUserID (c : Context) : Nat × Option Reply :=
  match c.Get "user_id" with
  | some (.uintV userID) => (userID, none)
  | _ => (0, some (.httpError StatusUnauthorized "User not authenticated"))

/-- The `page` block shared verbatim by the three list handlers. -/
def pageOf (ctx : Context) : Int :=
  let page : Int := 1
  let pageParam := ctx.QueryParam "page"
  if pageParam ≠ "" then
    match Atoi pageParam with
    | .ok parsedPage => if parsedPage > 0 then parsedPage else page
    | .error _ => page
  else page

/-- The `page_size` block shared verbatim by the three list handlers. -/
def pageSizeOf (ctx : Context) : Int :=
  let pageSize : Int := 10
  let pageSizeParam := ctx.QueryParam "page_size"
  if pageSizeParam ≠ "" then
    match Atoi pageSizeParam with
    | .ok parsedPageSize => if parsedPageSize > 0 then parsedPageSize else pageSize
    | .error _ => pageSize
  else pageSize

/-! ## The worker controller -/

/-- The methods of `repository.WorkerRepository` the controller calls. `Create`
and `Update` take a pointer: on success they hand back the record as the
repository left it. -/
structure WorkerRepository where
  GetAll : Nat → Filters → String → String → Int → Int → Except GoError (List Worker × Int)
  GetByID : Nat → Nat → Except GoError Worker
  Create : Worker → Except GoError Worker
  Update : Worker → Nat → Except GoError Worker
  Delete : Nat → Nat → Option GoError
  AddToProject : Nat → Nat → Nat → Option GoError
  RemoveFromProject : Nat → Nat → Nat → Option GoError

/-- A call on the worker repository, with its arguments. -/
inductive WorkerCall where
  | GetAll (userID : Nat) (filters : Filters) (sortBy sortOrder : String) (page pageSize : Int)
  | GetByID (id userID : Nat)
  | Create (w : Worker)
  | Update (w : Worker) (userID : Nat)
  | Delete (id userID : Nat)
  | AddToProject (workerId projectId userID : Nat)
  | RemoveFromProject (workerId projectId userID : Nat)
deriving DecidableEq, Repr

/-- The struct `WorkerController`; `validate` is `c.validate.Struct`, with
`none` for a nil error. -/
structure WorkerController where
  repo : WorkerRepository
  validate : Worker → Option GoError

namespace WorkerController

/-- The filter map built by `GetAllWorkers` (lines 42 to 77). -/
def filtersOf (ctx : Context) : Filters :=
  let filters : Filters := []
  let search := ctx.QueryParam "search"
  let filters := if search ≠ "" then filters.set "search" (.str search) else filters
  let position := ctx.QueryParam "position"
  let filters := if position ≠ "" then filters.set "position" (.str position) else filters
  let minAge := ctx.QueryParam "min_age"
  let filters :=
    if minAge ≠ "" then
      match Atoi minAge with
      | .ok age => filters.set "min_age" (.int age)
      | .error _ => filters
    else filters
  let maxAge := ctx.QueryParam "max_age"
  let filters :=
    if maxAge ≠ "" then
      match Atoi maxAge with
      | .ok age => filters.set "max_age" (.int age)
      | .error _ => filters
    else filters
  let minSalary := ctx.QueryParam "min_salary"
  let filters :=
    if minSalary ≠ "" then
      match Atoi minSalary with
      | .ok salary => filters.set "min_salary" (.int salary)
      | .error _ => filters
    else filters
  let maxSalary := ctx.QueryParam "max_salary"
  let filters :=
    if maxSalary ≠ "" then
      match Atoi maxSalary with
      | .ok salary => filters.set "max_salary" (.int salary)
      | .error _ => filters
    else filters
  filters

/-- Handler of `GET /api/workers`. -/
def GetAllWorkers (c : WorkerController) (ctx : Context) : Result WorkerCall :=
  match getUserID ctx with
  | (_, some err) => ⟨err, []⟩
  | (userID, none) =>
    let filters := filtersOf ctx
    let sortBy := ctx.QueryParam "sort_by"
    let sortOrder := ctx.QueryParam "sort_order"
    let page := pageOf ctx
    let pageSize := pageSizeOf ctx
    let calls := [WorkerCall.GetAll userID filters sortBy sortOrder page pageSize]
    match c.repo.GetAll userID filters sortBy sortOrder page pageSize with
    | .error err => ⟨.json StatusInternalServerError (.error err.msg), calls⟩
    | .ok (workers, total) => ⟨.json StatusOK (.workerPage workers total page pageSize), calls⟩

/-- Handler of `GET /api/workers/:id`. -/
def GetWorker (c : WorkerController) (ctx : Context) : Result WorkerCall :=
  match getUserID ctx with
  | (_, some err) => ⟨err, []⟩
  | (userID, none) =>
    match ParseUint (ctx.Param "id") 32 with
    | .error _ => ⟨.json StatusBadRequest (.error "Invalid ID"), []⟩
    | .ok id =>
      match c.repo.GetByID id userID with
      | .error _ => ⟨.json StatusNotFound (.error "Worker not found"), [.GetByID id userID]⟩
      | .ok worker => ⟨.json StatusOK (.worker worker), [.GetByID id userID]⟩

/-- Handler of `POST /api/workers`. -/
def CreateWorker (c : WorkerController) (ctx : Context) : Result WorkerCall :=
  match getUserID ctx with
  | (_, some err) => ⟨err, []⟩
  | (userID, none) =>
    match ctx.BindWorker with
    | .error err => ⟨.json StatusBadRequest (.error err.msg), []⟩
    | .ok worker =>
      let worker := { worker with UserID := userID }
      match c.validate worker with
      | some err => ⟨.json StatusBadRequest (.error err.msg), []⟩
      | none =>
        match c.repo.Create worker with
        | .error err => ⟨.json StatusInternalServerError (.error err.msg), [.Create worker]⟩
        | .ok created => ⟨.json StatusCreated (.worker created), [.Create worker]⟩

/-- Handler of `PUT /api/workers/:id`. -/
def UpdateWorker (c : WorkerController) (ctx : Context) : Result WorkerCall :=
  match getUserID ctx with
  | (_, some err) => ⟨err, []⟩
  | (userID, none) =>
    match ParseUint (ctx.Param "id") 32 with
    | .error _ => ⟨.json StatusBadRequest (.error "Invalid ID"), []⟩
    | .ok id =>
      match ctx.BindWorker with
      | .error err => ⟨.json StatusBadRequest (.error err.msg), []⟩
      | .ok worker =>
        let worker := { worker with ID := id, UserID := userID }
        match c.repo.Update worker userID with
        | .error err =>
          ⟨.json StatusInternalServerError (.error err.msg), [.Update worker userID]⟩
        | .ok updated => ⟨.json StatusOK (.worker updated), [.Update worker userID]⟩

/-- Handler of `DELETE /api/workers/:id`. -/
def DeleteWorker (c : WorkerController) (ctx : Context) : Result WorkerCall :=
  match getUserID ctx with
  | (_, some err) => ⟨err, []⟩
  | (userID, none) =>
    match ParseUint (ctx.Param "id") 32 with
    | .error _ => ⟨.json StatusBadRequest (.error "Invalid ID"), []⟩
    | .ok id =>
      match c.repo.Delete id userID with
      | some err => ⟨.json StatusInternalServerError (.error err.msg), [.Delete id userID]⟩
      | none => ⟨.noContent StatusNoContent, [.Delete id userID]⟩

/-- Handler of `POST /api/workers/:workerId/projects/:projectId`. -/
def AddToProject (c : WorkerController) (ctx : Context) : Result WorkerCall :=
  match getUserID ctx with
  | (_, some err) => ⟨err, []⟩
  | (userID, none) =>
    match ParseUint (ctx.Param "workerId") 32 with
    | .error _ => ⟨.json StatusBadRequest (.error "Invalid worker ID"), []⟩
    | .ok workerId =>
      match ParseUint (ctx.Param "projectId") 32 with
      | .error _ => ⟨.json StatusBadRequest (.error "Invalid project ID"), []⟩
      | .ok projectId =>
        match c.repo.AddToProject workerId projectId userID with
        | some err =>
          ⟨.json StatusInternalServerError (.error err.msg),
            [.AddToProject workerId projectId userID]⟩
        | none => ⟨.noContent StatusNoContent, [.AddToProject workerId projectId userID]⟩

/-- Handler of `DELETE /api/workers/:workerId/projects/:projectId`. -/
def RemoveFromProject (c : WorkerController) (ctx : Context) : Result WorkerCall :=
  match getUserID ctx with
  | (_, some err) => ⟨err, []⟩
  | (userID, none) =>
    match ParseUint (ctx.Param "workerId") 32 with
    | .error _ => ⟨.json StatusBadRequest (.error "Invalid worker ID"), []⟩
    | .ok workerId =>
      match ParseUint (ctx.Param "projectId") 32 with
      | .error _ => ⟨.json StatusBadRequest (.error "Invalid project ID"), []⟩
      | .ok projectId =>
        match c.repo.RemoveFromProject workerId projectId userID with
        | some err =>
          ⟨.json StatusInternalServerError (.error err.msg),
            [.RemoveFromProject workerId projectId userID]⟩
        | none =>
          ⟨.noContent StatusNoContent, [.RemoveFromProject workerId projectId userID]⟩

end WorkerController

/-! ## The project controller -/

/-- The methods of `repository.ProjectRepository` the controller calls. -/
structure ProjectRepository where
  GetAll : Nat → Filters → String → String → Int → Int → Except GoError (List Project × Int)
  GetByID : Nat → Nat → Except GoError Project
  Create : Project → Except GoError Project
  Update : Project → Nat → Except GoError Project
  Delete : Nat → Nat → Option GoError
  AddWorker : Nat → Nat → Nat → Option GoError
  RemoveWorker : Nat → Nat → Nat → Option GoError
  GetAllWorkers : Nat → Int → Int → Except GoError (List Worker × Int)

/-- A call on the project repository, with its arguments. -/
inductive ProjectCall where
  | GetAll (userID : Nat) (filters : Filters) (sortBy sortOrder : String) (page pageSize : Int)
  | GetByID (id userID : Nat)
  | Create (p : Project)
  | Update (p : Project) (userID : Nat)
  | Delete (id userID : Nat)
  | AddWorker (projectId workerId userID : Nat)
  | RemoveWorker (projectId workerId userID : Nat)
  | GetAllWorkers (userID : Nat) (page pageSize : Int)
deriving DecidableEq, Repr

/-- The struct `ProjectController`; `validate` is `c.validate.Struct`, with
`none` for a nil error. -/
structure ProjectController where
  repo : ProjectRepository
  validate : Project → Option GoError

namespace ProjectController

/-- The filter map built by `GetAllProjects` (lines 33 to 43). -/
def filtersOf (ctx : Context) : Filters :=
  let filters : Filters := []
  let name := ctx.QueryParam "name"
  let filters := if name ≠ "" then filters.set "name" (.str name) else filters
  let status := ctx.QueryParam "status"
  let filters := if status ≠ "" then filters.set "status" (.str status) else filters
  let search := ctx.QueryParam "search"
  let filters := if search ≠ "" then filters.set "search" (.str search) else filters
  filters

/-- Handler of `GET /api/projects`. -/
def GetAllProjects (c : ProjectController) (ctx : Context) : Result ProjectCall :=
  match getUserID ctx with
  | (_, some err) => ⟨err, []⟩
  | (userID, none) =>
    let filters := filtersOf ctx
    let sortBy := ctx.QueryParam "sort_by"
    let sortOrder := ctx.QueryParam "sort_order"
    let page := pageOf ctx
    let pageSize := pageSizeOf ctx
    let calls := [ProjectCall.GetAll userID filters sortBy sortOrder page pageSize]
    match c.repo.GetAll userID filters sortBy sortOrder page pageSize with
    | .error err => ⟨.json StatusInternalServerError (.error err.msg), calls⟩
    | .ok (projects, total) =>
      ⟨.json StatusOK (.projectPage projects total page pageSize), calls⟩

/-- Handler of `GET /api/projects/:id`. -/
def GetProject (c : ProjectController) (ctx : Context) : Result ProjectCall :=
  match getUserID ctx with
  | (_, some err) => ⟨err, []⟩
  | (userID, none) =>
    match ParseUint (ctx.Param "id") 32 with
    | .error _ => ⟨.json StatusBadRequest (.error "Invalid ID"), []⟩
    | .ok id =>
      match c.repo.GetByID id userID with
      | .error _ => ⟨.json StatusNotFound (.error "Project not found"), [.GetByID id userID]⟩
      | .ok project => ⟨.json StatusOK (.project project), [.GetByID id userID]⟩

/-- Handler of `POST /api/projects`. -/
def CreateProject (c : ProjectController) (ctx : Context) : Result ProjectCall :=
  match getUserID ctx with
  | (_, some err) => ⟨err, []⟩
  | (userID, none) =>
    match ctx.BindProject with
    | .error err => ⟨.json StatusBadRequest (.error err.msg), []⟩
    | .ok project =>
      let project := { project with UserID := userID }
      match c.validate project with
      | some err => ⟨.json StatusBadRequest (.error err.msg), []⟩
      | none =>
        match c.repo.Create project with
        | .error err => ⟨.json StatusInternalServerError (.error err.msg), [.Create project]⟩
        | .ok created => ⟨.json StatusCreated (.project created), [.Create project]⟩

/-- Handler of `PUT /api/projects/:id`. -/
def UpdateProject (c : ProjectController) (ctx : Context) : Result ProjectCall :=
  match getUserID ctx with
  | (_, some err) => ⟨err, []⟩
  | (userID, none) =>
    match ParseUint (ctx.Param "id") 32 with
    | .error _ => ⟨.json StatusBadRequest (.error "Invalid ID"), []⟩
    | .ok id =>
      match ctx.BindProject with
      | .error err => ⟨.json StatusBadRequest (.error err.msg), []⟩
      | .ok project =>
        let project := { project with ID := id, UserID := userID }
        match c.repo.Update project userID with
        | .error err =>
          ⟨.json StatusInternalServerError (.error err.msg), [.Update project userID]⟩
        | .ok updated => ⟨.json StatusOK (.project updated), [.Update project userID]⟩

/-- Handler of `DELETE /api/projects/:id`. -/
def DeleteProject (c : ProjectController) (ctx : Context) : Result ProjectCall :=
  match getUserID ctx with
  | (_, some err) => ⟨err, []⟩
  | (userID, none) =>
    match ParseUint (ctx.Param "id") 32 with
    | .error _ => ⟨.json StatusBadRequest (.error "Invalid ID"), []⟩
    | .ok id =>
      match c.repo.Delete id userID with
      | some err => ⟨.json StatusInternalServerError (.error err.msg), [.Delete id userID]⟩
      | none => ⟨.noContent StatusNoContent, [.Delete id userID]⟩

/-- Handler of `POST /api/projects/:id/workers`. -/
def AssignWorkerToProject (c : ProjectController) (ctx : Context) : Result ProjectCall :=
  match getUserID ctx with
  | (_, some err) => ⟨err, []⟩
  | (userID, none) =>
    match ParseUint (ctx.Param "id") 32 with
    | .error _ => ⟨.json StatusBadRequest (.error "Invalid project ID"), []⟩
    | .ok projectId =>
      match ctx.BindWorkerId with
      | .error err => ⟨.json StatusBadRequest (.error err.msg), []⟩
      | .ok workerId =>
        match c.repo.AddWorker projectId workerId userID with
        | some err =>
          ⟨.json StatusInternalServerError (.error err.msg),
            [.AddWorker projectId workerId userID]⟩
        | none =>
          let calls := [ProjectCall.AddWorker projectId workerId userID,
            ProjectCall.GetByID projectId userID]
          match c.repo.GetByID projectId userID with
          | .error err => ⟨.json StatusInternalServerError (.error err.msg), calls⟩
          | .ok project => ⟨.json StatusOK (.project project), calls⟩

/-- The inner loop of `GetAvailableWorkers` (lines 251 to 257): whether some
assigned worker has the ID of `worker`. -/
def isAssigned (worker : Worker) : List Worker → Bool
  | [] => false
  | assignedWorker :: rest =>
    if worker.ID = assignedWorker.ID then true else isAssigned worker rest

/-- The outer loop of `GetAvailableWorkers` (lines 249 to 261), started from the
accumulator `availableWorkers`. -/
def filterAvailable (assigned : List Worker) (availableWorkers : List Worker) :
    List Worker → List Worker
  | [] => availableWorkers
  | worker :: rest =>
    if !isAssigned worker assigned then
      filterAvailable assigned (availableWorkers ++ [worker]) rest
    else
      filterAvailable assigned availableWorkers rest

/-- Handler of `GET /api/projects/:id/workers/available`. -/
def GetAvailableWorkers (c : ProjectController) (ctx : Context) : Result ProjectCall :=
  match getUserID ctx with
  | (_, some err) => ⟨err, []⟩
  | (userID, none) =>
    match ParseUint (ctx.Param "id") 32 with
    | .error _ => ⟨.json StatusBadRequest (.error "Invalid project ID"), []⟩
    | .ok projectId =>
      match c.repo.GetByID projectId userID with
      | .error _ =>
        ⟨.json StatusNotFound (.error "Project not found"), [.GetByID projectId userID]⟩
      | .ok project =>
        let page := pageOf ctx
        let pageSize := pageSizeOf ctx
        let calls := [ProjectCall.GetByID projectId userID,
          ProjectCall.GetAllWorkers userID page pageSize]
        match c.repo.GetAllWorkers userID page pageSize with
        | .error err => ⟨.json StatusInternalServerError (.error err.msg), calls⟩
        | .ok (workers, total) =>
          let availableWorkers := filterAvailable project.Workers [] workers
          ⟨.json StatusOK (.workerPage availableWorkers total page pageSize), calls⟩

/-- Handler of `DELETE /api/projects/:id/workers/:workerId`. -/
def UnassignWorkerFromProject (c : ProjectController) (ctx : Context) : Result ProjectCall :=
  match getUserID ctx with
  | (_, some err) => ⟨err, []⟩
  | (userID, none) =>
    match ParseUint (ctx.Param "id") 32 with
    | .error _ => ⟨.json StatusBadRequest (.error "Invalid project ID"), []⟩
    | .ok projectId =>
      match ParseUint (ctx.Param "workerId") 32 with
      | .error _ => ⟨.json StatusBadRequest (.error "Invalid worker ID"), []⟩
      | .ok workerId =>
        match c.repo.RemoveWorker projectId workerId userID with
        | some err =>
          ⟨.json StatusInternalServerError (.error err.msg),
            [.RemoveWorker projectId workerId userID]⟩
        | none => ⟨.noContent StatusNoContent, [.RemoveWorker projectId workerId userID]⟩

end ProjectController

/-! ## A store to run the handlers on -/

/-- Rows of the `workers` and `projects` relations; a project row carries its
assigned workers, as `repo.GetByID` preloads them. -/
structure Store where
  workers : List Worker
  projects : List Project

/-- The window of `xs` that page number `page` of size `pageSize` shows. -/
def pageWindow {α : Type} (xs : List α) (page pageSize : Int) : List α :=
  (xs.drop ((page - 1) * pageSize).toNat).take pageSize.toNat

/-- The workers of the store owned by tenant `userID`. -/
def Store.workersOf (s : Store) (userID : Nat) : List Worker :=
  s.workers.filter (fun w => w.UserID == userID)

/-- The projects of the store owned by tenant `userID`. -/
def Store.projectsOf (s : Store) (userID : Nat) : List Project :=
  s.projects.filter (fun p => p.UserID == userID)

/-- The error a lookup gives for a row that is absent or owned by someone else. -/
def recordNotFound : GoError := ⟨"record not found"⟩

/-- Modelled from the spec: a read-only `WorkerRepository` over a store (the
repository package is outside the controller files). Section 4.3: every call is
scoped to the tenant, fetch, update and delete fail when the row is absent or
not owned, a list returns the page and the size of the whole set. Filters and
sort are the query composer's work and are left out: `GetAll` lists all the
tenant's workers in store order. -/
def Store.workerRepository (s : Store) : WorkerRepository where
  GetAll userID _ _ _ page pageSize :=
    .ok (pageWindow (s.workersOf userID) page pageSize, (s.workersOf userID).length)
  GetByID id userID :=
    match (s.workersOf userID).find? (fun w => w.ID == id) with
    | some w => .ok w
    | none => .error recordNotFound
  Create w := .ok w
  Update w userID :=
    if (s.workersOf userID).any (fun x => x.ID == w.ID) then .ok w else .error recordNotFound
  Delete id userID :=
    if (s.workersOf userID).any (fun x => x.ID == id) then none else some recordNotFound
  AddToProject workerId projectId userID :=
    if (s.workersOf userID).any (fun x => x.ID == workerId)
        && (s.projectsOf userID).any (fun x => x.ID == projectId) then none
    else some recordNotFound
  RemoveFromProject _ _ _ := none

/-- Modelled from the spec: a read-only `ProjectRepository` over a store, under
the same reading of section 4.3 as `Store.workerRepository`; `GetAllWorkers`
lists the tenant's workers, page by page, with their number as total. -/
def Store.projectRepository (s : Store) : ProjectRepository where
  GetAll userID _ _ _ page pageSize :=
    .ok (pageWindow (s.projectsOf userID) page pageSize, (s.projectsOf userID).length)
  GetByID id userID :=
    match (s.projectsOf userID).find? (fun p => p.ID == id) with
    | some p => .ok p
    | none => .error recordNotFound
  Create p := .ok p
  Update p userID :=
    if (s.projectsOf userID).any (fun x => x.ID == p.ID) then .ok p else .error recordNotFound
  Delete id userID :=
    if (s.projectsOf userID).any (fun x => x.ID == id) then none else some recordNotFound
  AddWorker projectId workerId userID :=
    if (s.workersOf userID).any (fun x => x.ID == workerId)
        && (s.projectsOf userID).any (fun x => x.ID == projectId) then none
    else some recordNotFound
  RemoveWorker _ _ _ := none
  GetAllWorkers userID page pageSize :=
    .ok (pageWindow (s.workersOf userID) page pageSize, (s.workersOf userID).length)

/-- Three workers of tenant 1 and one worker of tenant 2. -/
def ana : Worker := ⟨1, "Ana", "Engineer", 30, 5000, 1⟩
def bob : Worker := ⟨2, "Bob", "Mason", 41, 3200, 1⟩
def cid : Worker := ⟨3, "Cid", "Welder", 25, 2800, 1⟩
def dan : Worker := ⟨4, "Dan", "Driver", 52, 2500, 2⟩

/-- Project 7 of tenant 1 has Ana assigned. -/
def bridge : Project := ⟨7, "Bridge", "active", "2025-01-01", "2025-12-31", 0, 0, 1, [ana]⟩

/-- Project 8 of tenant 1 has nobody assigned. -/
def depot : Project := ⟨8, "Depot", "planned", "2025-02-01", "2025-09-30", 0, 0, 1, []⟩

/-- Project 9 belongs to tenant 2. -/
def quay : Project := ⟨9, "Quay", "active", "2025-03-01", "2025-10-31", 0, 0, 2, [dan]⟩

def site : Store := ⟨[ana, bob, cid, dan], [bridge, depot, quay]⟩

/-- A validator that asks for a name. -/
def needsName (w : Worker) : Option GoError :=
  if w.Name = "" then some ⟨"Name is required"⟩ else none

/-- A validator that asks for a project name. -/
def needsProjectName (p : Project) : Option GoError :=
  if p.Name = "" then some ⟨"Name is required"⟩ else none

def workerCtl : WorkerController := ⟨site.workerRepository, needsName⟩

def projectCtl : ProjectController := ⟨site.projectRepository, needsProjectName⟩

/-- A request of the tenant `userID` with the given query string and path
parameters; its body binds to `w` and `p`. -/
def requestOf (userID : Nat) (query params : List (String × String))
    (w : Worker) (p : Project) : Context :=
  ⟨[("user_id", .uintV userID)], query, params, .ok w, .ok p, .ok 0⟩

/-- A payload that names its own owner and ID. -/
def forged : Worker := ⟨99, "Eve", "Spy", 33, 1, 2⟩

/-- A project payload that names its own owner and ID. -/
def forgedProject : Project := ⟨99, "Annex", "active", "", "", 0, 0, 2, []⟩

/-- The error of a store that cannot be reached. -/
def outage : GoError := ⟨"dial tcp 127.0.0.1:5432: connect: connection refused"⟩

/-- The worker controller over a store whose every call fails with `outage`. -/
def downWorkerCtl : WorkerController where
  repo := {
    GetAll := fun _ _ _ _ _ _ => .error outage
    GetByID := fun _ _ => .error outage
    Create := fun _ => .error outage
    Update := fun _ _ => .error outage
    Delete := fun _ _ => some outage
    AddToProject := fun _ _ _ => some outage
    RemoveFromProject := fun _ _ _ => some outage }
  validate := needsName

/-- The project controller over a store whose every call fails with `outage`. -/
def downProjectCtl : ProjectController where
  repo := {
    GetAll := fun _ _ _ _ _ _ => .error outage
    GetByID := fun _ _ => .error outage
    Create := fun _ => .error outage
    Update := fun _ _ => .error outage
    Delete := fun _ _ => some outage
    AddWorker := fun _ _ _ => some outage
    RemoveWorker := fun _ _ _ => some outage
    GetAllWorkers := fun _ _ _ => .error outage }
  validate := needsProjectName

/-- The error of a body that cannot be decoded. -/
def malformed : GoError := ⟨"unexpected EOF"⟩

/-- A request of tenant `userID` whose body fails to bind. -/
def unboundRequest (userID : Nat) : Context :=
  ⟨[("user_id", .uintV userID)], [], [], .error malformed, .error malformed, .error malformed⟩

/-- A worker payload without a name. -/
def nameless : Worker := ⟨0, "", "Mason", 20, 100, 0⟩

/-- A project payload without a name. -/
def namelessProject : Project := ⟨0, "", "active", "", "", 0, 0, 0, []⟩

/-- What a text parameter contributes to a filter map: its value, unless empty. -/
def strFilter (value : String) : Option FilterValue :=
  if value = "" then none else some (.str value)

/-- What a numeric range parameter contributes to a filter map: the integer it
parses to, nothing when it does not parse. -/
def intFilter (value : String) : Option FilterValue :=
  match Atoi value with
  | .ok n => some (.int n)
  | .error _ => none

/-- The query parameters `GetAllWorkers` reads. -/
def workerQueryKeys : List String :=
  ["search", "position", "min_age", "max_age", "min_salary", "max_salary",
    "sort_by", "sort_order", "page", "page_size"]

/-- The query parameters `GetAllProjects` reads. -/
def projectQueryKeys : List String :=
  ["name", "status", "search", "sort_by", "sort_order", "page", "page_size"]

/-- The numeric range parameters of `GetAllWorkers`. -/
def rangeKeys : List String := ["min_age", "max_age", "min_salary", "max_salary"]

/-- The keys `GetAllWorkers` can put in its filter map. -/
def workerFilterKeys : List String :=
  ["search", "position", "min_age", "max_age", "min_salary", "max_salary"]

/-- The keys `GetAllProjects` can put in its filter map. -/
def projectFilterKeys : List String := ["name", "status", "search"]

/-- A list request of tenant 1 for project 7 with the given query string. -/
def listRequest (query : List (String × String)) : Context :=
  requestOf 1 query [("id", "7")] forged forgedProject

/-- A worker list request with one good bound, one malformed, one empty. -/
def rangeRequest : Context :=
  listRequest [("min_age", "25"), ("max_age", "old"), ("min_salary", ""),
    ("max_salary", "-1"), ("position", "Mason")]

/-- The same request with a well-formed `max_age`. -/
def rangeRequestFixed : Context :=
  listRequest [("min_age", "25"), ("max_age", "50"), ("min_salary", ""),
    ("max_salary", "-1"), ("position", "Mason")]

/-- A worker list request with known parameters only. -/
def plainRequest : Context :=
  listRequest [("position", "Mason"), ("status", "active"), ("page", "2"), ("page_size", "1")]

/-- The same request with parameters no handler knows. -/
def noisyRequest : Context :=
  listRequest [("colour", "red"), ("position", "Mason"), ("status", "active"),
    ("user_id", "2"), ("page", "2"), ("page_size", "1"), ("limit", "1000")]

/-- The set difference of section 4.4 of the specification: the workers of
tenant `userID` that are not assigned to `project`. -/
def Store.unassignedWorkers (s : Store) (userID : Nat) (project : Project) : List Worker :=
  (s.workersOf userID).filter (fun w => !project.Workers.any (fun a => a.ID == w.ID))

/-- A first-page request of tenant 1 for the available workers of project `id`. -/
def availableRequest (id : String) : Context :=
  requestOf 1 [] [("id", id)] forged forgedProject

/-- A request that carries no `user_id` in its context. -/
def anonymousRequest : Context :=
  ⟨[], [("page", "2")], [("id", "7"), ("workerId", "1"), ("projectId", "7")],
    .ok forged, .ok forgedProject, .ok 1⟩

/-- A request whose `user_id` is an `int`, not a `uint`. -/
def mistypedRequest : Context :=
  ⟨[("user_id", .intV 1)], [("page", "2")],
    [("id", "7"), ("workerId", "1"), ("projectId", "7")],
    .ok forged, .ok forgedProject, .ok 1⟩

/-- A request of tenant 1 to every route: project 7, worker 1. -/
def signedRequest : Context :=
  ⟨[("user_id", .uintV 1)], [("page", "2")],
    [("id", "7"), ("workerId", "1"), ("projectId", "7")],
    .ok forged, .ok forgedProject, .ok 1⟩

/-- The IDs of the workers assigned to a project. -/
def Project.assignedIDs (project : Project) : List Nat :=
  project.Workers.map (fun a => a.ID)

/-- The error `getUserID` returns when the context has no `uint` user id. -/
def notAuthenticated : Reply := .httpError StatusUnauthorized "User not authenticated"

/-- A list request that asks for the largest page size an `int` can hold. -/
def hugePageRequest : Context := listRequest [("page_size", "9223372036854775807")]

/-- A list request that asks for a million rows per page. -/
def millionPageRequest : Context := listRequest [("page_size", "1000000")]

/-! ## Lemmas -/

theorem getUserID_error {ctx : Context} {n : Nat} {err : Reply}
    (h : getUserID ctx = (n, some err)) :
    n = 0 ∧ err = .httpError StatusUnauthorized "User not authenticated" := by
  unfold getUserID at h
  split at h
  · simp at h
  · simp only [Prod.mk.injEq, Option.some.injEq] at h
    exact ⟨h.1.symm, h.2.symm⟩

namespace ProjectController

theorem isAssigned_eq_true_iff (worker : Worker) (assigned : List Worker) :
    isAssigned worker assigned = true ↔ ∃ a ∈ assigned, worker.ID = a.ID := by
  induction assigned with
  | nil => simp [isAssigned]
  | cons a rest ih =>
    simp only [isAssigned, List.mem_cons, exists_eq_or_imp]
    by_cases h : worker.ID = a.ID
    · simp [h]
    · simp [h, ih]

theorem filterAvailable_eq (assigned acc workers : List Worker) :
    filterAvailable assigned acc workers
      = acc ++ workers.filter (fun w => !isAssigned w assigned) := by
  induction workers generalizing acc with
  | nil => simp [filterAvailable]
  | cons w rest ih =>
    simp only [filterAvailable]
    by_cases h : isAssigned w assigned = true
    · simp [h, ih]
    · simp [h, ih]

end ProjectController

/-! ## Available workers never include an assigned worker -/

/-- C1: whenever `GetAvailableWorkers` answers with a worker list, the request
was authenticated for some tenant, its path named a project that
`repo.GetByID` returned for that tenant, and no worker of the list has the ID
of a worker in that project's `Workers`, whatever page and page size were
asked for. -/
theorem GetAvailableWorkers_excludes_assigned (c : ProjectController) (ctx : Context)
    (code : Nat) (data : List Worker) (total page pageSize : Int)
    (h : (c.GetAvailableWorkers ctx).reply
      = .json code (.workerPage data total page pageSize)) :
    ∃ userID projectId project,
      getUserID ctx = (userID, none) ∧
      ParseUint (ctx.Param "id") 32 = .ok projectId ∧
      c.repo.GetByID projectId userID = .ok project ∧
      ∀ w ∈ data, ∀ a ∈ project.Workers, w.ID ≠ a.ID := by
  unfold ProjectController.GetAvailableWorkers at h
  split at h
  · rename_i err hu
    obtain ⟨-, rfl⟩ := getUserID_error hu
    simp at h
  · rename_i userID hu
    split at h
    · simp at h
    · rename_i projectId hp
      split at h
      · simp at h
      · rename_i project hg
        dsimp only at h
        split at h
        · simp at h
        · rename_i workers total0 hw
          simp only [Reply.json.injEq, Body.workerPage.injEq] at h
          obtain ⟨-, hdata, -, -, -⟩ := h
          refine ⟨userID, projectId, project, hu, hp, hg, ?_⟩
          intro w hwmem a ha hEq
          rw [← hdata, ProjectController.filterAvailable_eq] at hwmem
          simp only [List.nil_append, List.mem_filter, Bool.not_eq_true'] at hwmem
          have := (ProjectController.isAssigned_eq_true_iff w project.Workers).mpr ⟨a, ha, hEq⟩
          simp [this] at hwmem

theorem GetAvailableWorkers_excludes_assigned_witness :
    ∃ userID projectId project,
      getUserID (requestOf 1 [("page", "1")] [("id", "7")] forged forgedProject)
        = (userID, none) ∧
      ParseUint ((requestOf 1 [("page", "1")] [("id", "7")] forged forgedProject).Param "id") 32
        = .ok projectId ∧
      projectCtl.repo.GetByID projectId userID = .ok project ∧
      ∀ w ∈ [bob, cid], ∀ a ∈ project.Workers, w.ID ≠ a.ID :=
  GetAvailableWorkers_excludes_assigned projectCtl
    (requestOf 1 [("page", "1")] [("id", "7")] forged forgedProject)
    200 [bob, cid] 3 1 10 (by decide)

/-! ## Failed updates and deletes -/

/-- C2, as the code has it: for an authenticated request whose path id parses,
when `repo.Update` or `repo.Delete` fails, for whatever reason (a row that is
absent or owned by another tenant included), `UpdateWorker`, `DeleteWorker`,
`UpdateProject` and `DeleteProject` answer with status 500 and the message of
the repository error as body, having made that one repository call. -/
theorem update_delete_failure_is_internal_error (wc : WorkerController)
    (pc : ProjectController) (ctx : Context) (userID id : Nat)
    (hu : getUserID ctx = (userID, none))
    (hid : ParseUint (ctx.Param "id") 32 = .ok id) :
    (∀ w err, ctx.BindWorker = .ok w →
      wc.repo.Update { w with ID := id, UserID := userID } userID = .error err →
      wc.UpdateWorker ctx
        = ⟨.json StatusInternalServerError (.error err.msg),
            [.Update { w with ID := id, UserID := userID } userID]⟩) ∧
    (∀ err, wc.repo.Delete id userID = some err →
      wc.DeleteWorker ctx
        = ⟨.json StatusInternalServerError (.error err.msg), [.Delete id userID]⟩) ∧
    (∀ p err, ctx.BindProject = .ok p →
      pc.repo.Update { p with ID := id, UserID := userID } userID = .error err →
      pc.UpdateProject ctx
        = ⟨.json StatusInternalServerError (.error err.msg),
            [.Update { p with ID := id, UserID := userID } userID]⟩) ∧
    (∀ err, pc.repo.Delete id userID = some err →
      pc.DeleteProject ctx
        = ⟨.json StatusInternalServerError (.error err.msg), [.Delete id userID]⟩) := by
  refine ⟨?_, ?_, ?_, ?_⟩
  · intro w err hb hr
    simp only [WorkerController.UpdateWorker, hu, hid, hb, hr]
  · intro err hr
    simp only [WorkerController.DeleteWorker, hu, hid, hr]
  · intro p err hb hr
    simp only [ProjectController.UpdateProject, hu, hid, hb, hr]
  · intro err hr
    simp only [ProjectController.DeleteProject, hu, hid, hr]

theorem update_delete_failure_is_internal_error_witness :
    workerCtl.UpdateWorker (requestOf 1 [] [("id", "9")] forged forgedProject)
      = ⟨.json 500 (.error "record not found"), [.Update ⟨9, "Eve", "Spy", 33, 1, 1⟩ 1]⟩ ∧
    workerCtl.DeleteWorker (requestOf 1 [] [("id", "9")] forged forgedProject)
      = ⟨.json 500 (.error "record not found"), [.Delete 9 1]⟩ ∧
    projectCtl.UpdateProject (requestOf 1 [] [("id", "9")] forged forgedProject)
      = ⟨.json 500 (.error "record not found"),
          [.Update ⟨9, "Annex", "active", "", "", 0, 0, 1, []⟩ 1]⟩ ∧
    projectCtl.DeleteProject (requestOf 1 [] [("id", "9")] forged forgedProject)
      = ⟨.json 500 (.error "record not found"), [.Delete 9 1]⟩ :=
  have h := update_delete_failure_is_internal_error workerCtl projectCtl
    (requestOf 1 [] [("id", "9")] forged forgedProject) 1 9 (by decide) (by decide)
  ⟨h.1 forged recordNotFound rfl (by decide), h.2.1 recordNotFound (by decide),
    h.2.2.1 forgedProject recordNotFound rfl (by decide), h.2.2.2 recordNotFound (by decide)⟩

/-- C2 fails as stated: tenant 1 updates and deletes worker 4 and project 9,
rows owned by tenant 2, and then worker 5 and project 5, rows that do not
exist. The repository refuses each call with "record not found", and each of
the four handlers answers with status 500, not 404, while `GetWorker` and
`GetProject` answer 404 for the same ids. -/
theorem update_delete_missing_row_is_not_NotFound :
    (site.workerRepository.Update { forged with ID := 4, UserID := 1 } 1
        = .error recordNotFound ∧
      (workerCtl.UpdateWorker (requestOf 1 [] [("id", "4")] forged forgedProject)).reply.status
        = 500 ∧
      site.workerRepository.Delete 4 1 = some recordNotFound ∧
      (workerCtl.DeleteWorker (requestOf 1 [] [("id", "4")] forged forgedProject)).reply.status
        = 500 ∧
      (workerCtl.GetWorker (requestOf 1 [] [("id", "4")] forged forgedProject)).reply.status
        = 404) ∧
    (site.projectRepository.Update { forgedProject with ID := 9, UserID := 1 } 1
        = .error recordNotFound ∧
      (projectCtl.UpdateProject
        (requestOf 1 [] [("id", "9")] forged forgedProject)).reply.status = 500 ∧
      site.projectRepository.Delete 9 1 = some recordNotFound ∧
      (projectCtl.DeleteProject
        (requestOf 1 [] [("id", "9")] forged forgedProject)).reply.status = 500 ∧
      (projectCtl.GetProject
        (requestOf 1 [] [("id", "9")] forged forgedProject)).reply.status = 404) ∧
    (site.workerRepository.Delete 5 1 = some recordNotFound ∧
      (workerCtl.UpdateWorker (requestOf 1 [] [("id", "5")] forged forgedProject)).reply.status
        = 500 ∧
      (workerCtl.DeleteWorker (requestOf 1 [] [("id", "5")] forged forgedProject)).reply.status
        = 500 ∧
      (projectCtl.UpdateProject
        (requestOf 1 [] [("id", "5")] forged forgedProject)).reply.status = 500 ∧
      (projectCtl.DeleteProject
        (requestOf 1 [] [("id", "5")] forged forgedProject)).reply.status = 500) ∧
    (500 : Nat) ≠ StatusNotFound := by
  decide

/-! ## Fetch by id -/

/-- C3: for an authenticated request whose path id parses, any two failures of
`repo.GetByID` (of one repository or of two, with any two error values) make
`GetWorker` give one and the same result, status 404 with the body
"Worker not found", and make `GetProject` give status 404 with the body
"Project not found"; the error value does not appear in the reply. -/
theorem fetch_by_id_failures_indistinguishable (wc wc2 : WorkerController)
    (pc pc2 : ProjectController) (ctx : Context) (userID id : Nat)
    (hu : getUserID ctx = (userID, none))
    (hid : ParseUint (ctx.Param "id") 32 = .ok id) :
    (∀ e e2, wc.repo.GetByID id userID = .error e → wc2.repo.GetByID id userID = .error e2 →
      wc.GetWorker ctx = wc2.GetWorker ctx ∧
      wc.GetWorker ctx
        = ⟨.json StatusNotFound (.error "Worker not found"), [.GetByID id userID]⟩) ∧
    (∀ e e2, pc.repo.GetByID id userID = .error e → pc2.repo.GetByID id userID = .error e2 →
      pc.GetProject ctx = pc2.GetProject ctx ∧
      pc.GetProject ctx
        = ⟨.json StatusNotFound (.error "Project not found"), [.GetByID id userID]⟩) := by
  constructor
  · intro e e2 h h2
    simp only [WorkerController.GetWorker, hu, hid, h, h2, and_self]
  · intro e e2 h h2
    simp only [ProjectController.GetProject, hu, hid, h, h2, and_self]

theorem fetch_by_id_failures_indistinguishable_witness :
    (workerCtl.GetWorker (requestOf 1 [] [("id", "4")] forged forgedProject)
        = downWorkerCtl.GetWorker (requestOf 1 [] [("id", "4")] forged forgedProject) ∧
      workerCtl.GetWorker (requestOf 1 [] [("id", "4")] forged forgedProject)
        = ⟨.json 404 (.error "Worker not found"), [.GetByID 4 1]⟩) ∧
    (projectCtl.GetProject (requestOf 1 [] [("id", "4")] forged forgedProject)
        = downProjectCtl.GetProject (requestOf 1 [] [("id", "4")] forged forgedProject) ∧
      projectCtl.GetProject (requestOf 1 [] [("id", "4")] forged forgedProject)
        = ⟨.json 404 (.error "Project not found"), [.GetByID 4 1]⟩) :=
  have h := fetch_by_id_failures_indistinguishable workerCtl downWorkerCtl projectCtl
    downProjectCtl (requestOf 1 [] [("id", "4")] forged forgedProject) 1 4
    (by decide) (by decide)
  ⟨h.1 recordNotFound outage (by decide) (by decide),
    h.2 recordNotFound outage (by decide) (by decide)⟩

/-! ## The owner of a created or updated row -/

/-- C4: for a request authenticated as tenant `userID`, whatever the bound
payload holds in its own `UserID` and `ID`: every record `CreateWorker` and
`CreateProject` hand to `repo.Create` has `UserID = userID`; every record
`UpdateWorker` and `UpdateProject` hand to `repo.Update` has `UserID = userID`,
has the parsed path id as `ID`, and goes with `userID` as the tenant argument. -/
theorem repository_gets_context_owner (wc : WorkerController) (pc : ProjectController)
    (ctx : Context) (userID : Nat) (hu : getUserID ctx = (userID, none)) :
    (∀ w, WorkerCall.Create w ∈ (wc.CreateWorker ctx).calls → w.UserID = userID) ∧
    (∀ w u, WorkerCall.Update w u ∈ (wc.UpdateWorker ctx).calls →
      w.UserID = userID ∧ u = userID ∧ ParseUint (ctx.Param "id") 32 = .ok w.ID) ∧
    (∀ p, ProjectCall.Create p ∈ (pc.CreateProject ctx).calls → p.UserID = userID) ∧
    (∀ p u, ProjectCall.Update p u ∈ (pc.UpdateProject ctx).calls →
      p.UserID = userID ∧ u = userID ∧ ParseUint (ctx.Param "id") 32 = .ok p.ID) := by
  refine ⟨?_, ?_, ?_, ?_⟩
  · intro w h
    simp only [WorkerController.CreateWorker, hu] at h
    repeat' split at h
    all_goals simp at h
    all_goals simp [h]
  · intro w u h
    simp only [WorkerController.UpdateWorker, hu] at h
    repeat' split at h
    all_goals simp at h
    all_goals simp_all
  · intro p h
    simp only [ProjectController.CreateProject, hu] at h
    repeat' split at h
    all_goals simp at h
    all_goals simp [h]
  · intro p u h
    simp only [ProjectController.UpdateProject, hu] at h
    repeat' split at h
    all_goals simp at h
    all_goals simp_all

theorem repository_gets_context_owner_witness :
    (WorkerCall.Create ⟨99, "Eve", "Spy", 33, 1, 1⟩
        ∈ (workerCtl.CreateWorker (requestOf 1 [] [("id", "2")] forged forgedProject)).calls ∧
      (⟨99, "Eve", "Spy", 33, 1, 1⟩ : Worker).UserID = 1) ∧
    (WorkerCall.Update ⟨2, "Eve", "Spy", 33, 1, 1⟩ 1
        ∈ (workerCtl.UpdateWorker (requestOf 1 [] [("id", "2")] forged forgedProject)).calls ∧
      (⟨2, "Eve", "Spy", 33, 1, 1⟩ : Worker).UserID = 1 ∧ 1 = 1 ∧
      ParseUint ((requestOf 1 [] [("id", "2")] forged forgedProject).Param "id") 32
        = .ok (⟨2, "Eve", "Spy", 33, 1, 1⟩ : Worker).ID) ∧
    (ProjectCall.Create ⟨99, "Annex", "active", "", "", 0, 0, 1, []⟩
        ∈ (projectCtl.CreateProject (requestOf 1 [] [("id", "2")] forged forgedProject)).calls ∧
      (⟨99, "Annex", "active", "", "", 0, 0, 1, []⟩ : Project).UserID = 1) ∧
    (ProjectCall.Update ⟨2, "Annex", "active", "", "", 0, 0, 1, []⟩ 1
        ∈ (projectCtl.UpdateProject (requestOf 1 [] [("id", "2")] forged forgedProject)).calls ∧
      (⟨2, "Annex", "active", "", "", 0, 0, 1, []⟩ : Project).UserID = 1 ∧ 1 = 1 ∧
      ParseUint ((requestOf 1 [] [("id", "2")] forged forgedProject).Param "id") 32
        = .ok (⟨2, "Annex", "active", "", "", 0, 0, 1, []⟩ : Project).ID) :=
  have h := repository_gets_context_owner workerCtl projectCtl
    (requestOf 1 [] [("id", "2")] forged forgedProject) 1 (by decide)
  ⟨⟨by decide, h.1 _ (by decide)⟩, ⟨by decide, h.2.1 _ _ (by decide)⟩,
    ⟨by decide, h.2.2.1 _ (by decide)⟩, ⟨by decide, h.2.2.2 _ _ (by decide)⟩⟩

/-! ## Validation comes before storage -/

/-- C5: for a request authenticated as tenant `userID`, and for `CreateWorker`
and `CreateProject` alike: a payload that fails binding, or that fails
validation once its owner is set, gets status 400 with the error message and
no repository call; a `repo.Create` call is made only for a payload that was
bound and passed validation; and a failure of `repo.Create` gets status 500
with the repository's message. -/
theorem create_validates_before_storage (wc : WorkerController) (pc : ProjectController)
    (ctx : Context) (userID : Nat) (hu : getUserID ctx = (userID, none)) :
    ((∀ e, ctx.BindWorker = .error e →
        wc.CreateWorker ctx = ⟨.json StatusBadRequest (.error e.msg), []⟩) ∧
      (∀ w e, ctx.BindWorker = .ok w → wc.validate { w with UserID := userID } = some e →
        wc.CreateWorker ctx = ⟨.json StatusBadRequest (.error e.msg), []⟩) ∧
      (∀ w, WorkerCall.Create w ∈ (wc.CreateWorker ctx).calls →
        ∃ w0, ctx.BindWorker = .ok w0 ∧ w = { w0 with UserID := userID } ∧
          wc.validate w = none) ∧
      (∀ w e, ctx.BindWorker = .ok w → wc.validate { w with UserID := userID } = none →
        wc.repo.Create { w with UserID := userID } = .error e →
        wc.CreateWorker ctx
          = ⟨.json StatusInternalServerError (.error e.msg),
              [.Create { w with UserID := userID }]⟩)) ∧
    ((∀ e, ctx.BindProject = .error e →
        pc.CreateProject ctx = ⟨.json StatusBadRequest (.error e.msg), []⟩) ∧
      (∀ p e, ctx.BindProject = .ok p → pc.validate { p with UserID := userID } = some e →
        pc.CreateProject ctx = ⟨.json StatusBadRequest (.error e.msg), []⟩) ∧
      (∀ p, ProjectCall.Create p ∈ (pc.CreateProject ctx).calls →
        ∃ p0, ctx.BindProject = .ok p0 ∧ p = { p0 with UserID := userID } ∧
          pc.validate p = none) ∧
      (∀ p e, ctx.BindProject = .ok p → pc.validate { p with UserID := userID } = none →
        pc.repo.Create { p with UserID := userID } = .error e →
        pc.CreateProject ctx
          = ⟨.json StatusInternalServerError (.error e.msg),
              [.Create { p with UserID := userID }]⟩)) := by
  refine ⟨⟨?_, ?_, ?_, ?_⟩, ⟨?_, ?_, ?_, ?_⟩⟩
  · intro e hb
    simp only [WorkerController.CreateWorker, hu, hb]
  · intro w e hb hv
    simp only [WorkerController.CreateWorker, hu, hb, hv]
  · intro w h
    simp only [WorkerController.CreateWorker, hu] at h
    split at h
    · simp at h
    · rename_i w0 hb
      split at h
      · simp at h
      · rename_i hv
        refine ⟨w0, hb, ?_⟩
        split at h
        all_goals simp only [List.mem_singleton, WorkerCall.Create.injEq] at h
        all_goals subst h
        all_goals exact ⟨rfl, hv⟩
  · intro w e hb hv hr
    simp only [WorkerController.CreateWorker, hu, hb, hv, hr]
  · intro e hb
    simp only [ProjectController.CreateProject, hu, hb]
  · intro p e hb hv
    simp only [ProjectController.CreateProject, hu, hb, hv]
  · intro p h
    simp only [ProjectController.CreateProject, hu] at h
    split at h
    · simp at h
    · rename_i p0 hb
      split at h
      · simp at h
      · rename_i hv
        refine ⟨p0, hb, ?_⟩
        split at h
        all_goals simp only [List.mem_singleton, ProjectCall.Create.injEq] at h
        all_goals subst h
        all_goals exact ⟨rfl, hv⟩
  · intro p e hb hv hr
    simp only [ProjectController.CreateProject, hu, hb, hv, hr]

theorem create_validates_before_storage_witness :
    (workerCtl.CreateWorker (unboundRequest 1) = ⟨.json 400 (.error "unexpected EOF"), []⟩ ∧
      workerCtl.CreateWorker (requestOf 1 [] [] nameless namelessProject)
        = ⟨.json 400 (.error "Name is required"), []⟩ ∧
      (∃ w0, (requestOf 1 [] [] forged forgedProject).BindWorker = .ok w0 ∧
        (⟨99, "Eve", "Spy", 33, 1, 1⟩ : Worker) = { w0 with UserID := 1 } ∧
        workerCtl.validate ⟨99, "Eve", "Spy", 33, 1, 1⟩ = none) ∧
      downWorkerCtl.CreateWorker (requestOf 1 [] [] forged forgedProject)
        = ⟨.json 500 (.error outage.msg), [.Create ⟨99, "Eve", "Spy", 33, 1, 1⟩]⟩) ∧
    (projectCtl.CreateProject (unboundRequest 1) = ⟨.json 400 (.error "unexpected EOF"), []⟩ ∧
      projectCtl.CreateProject (requestOf 1 [] [] nameless namelessProject)
        = ⟨.json 400 (.error "Name is required"), []⟩ ∧
      (∃ p0, (requestOf 1 [] [] forged forgedProject).BindProject = .ok p0 ∧
        (⟨99, "Annex", "active", "", "", 0, 0, 1, []⟩ : Project) = { p0 with UserID := 1 } ∧
        projectCtl.validate ⟨99, "Annex", "active", "", "", 0, 0, 1, []⟩ = none) ∧
      downProjectCtl.CreateProject (requestOf 1 [] [] forged forgedProject)
        = ⟨.json 500 (.error outage.msg),
            [.Create ⟨99, "Annex", "active", "", "", 0, 0, 1, []⟩]⟩) :=
  have hUnbound := create_validates_before_storage workerCtl projectCtl
    (unboundRequest 1) 1 (by decide)
  have hNameless := create_validates_before_storage workerCtl projectCtl
    (requestOf 1 [] [] nameless namelessProject) 1 (by decide)
  have hGood := create_validates_before_storage workerCtl projectCtl
    (requestOf 1 [] [] forged forgedProject) 1 (by decide)
  have hDown := create_validates_before_storage downWorkerCtl downProjectCtl
    (requestOf 1 [] [] forged forgedProject) 1 (by decide)
  ⟨⟨hUnbound.1.1 malformed (by decide),
      hNameless.1.2.1 nameless ⟨"Name is required"⟩ (by decide) (by decide),
      hGood.1.2.2.1 ⟨99, "Eve", "Spy", 33, 1, 1⟩ (by decide),
      hDown.1.2.2.2 forged outage (by decide) (by decide) (by decide)⟩,
    ⟨hUnbound.2.1 malformed (by decide),
      hNameless.2.2.1 namelessProject ⟨"Name is required"⟩ (by decide) (by decide),
      hGood.2.2.2.1 ⟨99, "Annex", "active", "", "", 0, 0, 1, []⟩ (by decide),
      hDown.2.2.2.2 forgedProject outage (by decide) (by decide) (by decide)⟩⟩

/-! ## Pagination parameters -/

theorem Atoi_empty : Atoi "" = .error .ErrSyntax := by decide

theorem Atoi_range {s : String} {n : Int} (h : Atoi s = .ok n) : minInt ≤ n ∧ n ≤ maxInt := by
  have hpow : (2 : Int) ^ (intSize - 1) = 9223372036854775808 := by decide
  have hpowN : (2 : Nat) ^ (intSize - 1) = 9223372036854775808 := by decide
  unfold Atoi ParseInt at h
  simp only [hpowN] at h
  unfold minInt maxInt
  rw [hpow]
  split at h
  · simp at h
  · rename_i c rest hs
    split at h
    · simp at h
    · rename_i un hu
      by_cases hneg : c = '-'
      · simp only [hneg, not_true_eq_false, false_and, if_false, true_and, if_true] at h
        split at h
        · simp at h
        · simp only [Except.ok.injEq] at h
          omega
      · simp only [hneg, not_false_eq_true, true_and, false_and, if_false] at h
        split at h
        · simp at h
        · simp only [Except.ok.injEq] at h
          omega

/-- Values of `strconv.Atoi` and `strconv.ParseUint` on sample strings. -/
theorem strconv_samples :
    Atoi "25" = .ok 25 ∧ Atoi "+7" = .ok 7 ∧ Atoi "-3" = .ok (-3) ∧ Atoi "007" = .ok 7 ∧
    Atoi "-0" = .ok 0 ∧ Atoi "+" = .error .ErrSyntax ∧ Atoi "-" = .error .ErrSyntax ∧
    Atoi " 5" = .error .ErrSyntax ∧ Atoi "5 " = .error .ErrSyntax ∧
    Atoi "1_000" = .error .ErrSyntax ∧ Atoi "2.0" = .error .ErrSyntax ∧
    Atoi "0x10" = .error .ErrSyntax ∧ Atoi "--1" = .error .ErrSyntax ∧
    Atoi "9223372036854775807" = .ok maxInt ∧
    Atoi "9223372036854775808" = .error .ErrRange ∧
    Atoi "-9223372036854775808" = .ok minInt ∧
    Atoi "-9223372036854775809" = .error .ErrRange ∧
    Atoi "99999999999999999999x" = .error .ErrRange ∧
    ParseUint "7" 32 = .ok 7 ∧ ParseUint "4294967295" 32 = .ok 4294967295 ∧
    ParseUint "4294967296" 32 = .error .ErrRange ∧ ParseUint "" 32 = .error .ErrSyntax ∧
    ParseUint "-1" 32 = .error .ErrSyntax ∧ ParseUint "+1" 32 = .error .ErrSyntax ∧
    ParseUint "7a" 32 = .error .ErrSyntax := by
  decide

theorem digitValue_digitChar (r : Nat) (h : r < 10) : digitValue (Nat.digitChar r) = some r := by
  interval_cases r <;> decide

theorem digitChar_not_sign (r : Nat) (h : r < 10) :
    Nat.digitChar r ≠ '+' ∧ Nat.digitChar r ≠ '-' := by
  interval_cases r <;> decide

theorem uintLoop_digit (maxVal m r : Nat) (ds : List Char) (hr : r < 10)
    (h : m * 10 + r ≤ maxVal) (hmax : maxVal ≤ maxUint64) :
    uintLoop maxVal m (Nat.digitChar r :: ds) = uintLoop maxVal (m * 10 + r) ds := by
  have hM : maxUint64 = 18446744073709551615 := by decide
  rw [hM] at hmax
  rw [uintLoop, digitValue_digitChar r hr]
  simp only [hM]
  rw [if_neg (by omega), if_neg (by omega)]

theorem uintLoop_toDigitsCore (maxVal : Nat) (hmax : maxVal ≤ maxUint64) :
    ∀ (fuel n : Nat) (ds : List Char), n < fuel → n ≤ maxVal →
      uintLoop maxVal 0 (Nat.toDigitsCore 10 fuel n ds) = uintLoop maxVal n ds := by
  intro fuel
  induction fuel with
  | zero => intro n ds h; omega
  | succ fuel ih =>
    intro n ds hn hle
    rw [Nat.toDigitsCore]
    split
    · rename_i h0
      rw [uintLoop_digit maxVal 0 (n % 10) ds (Nat.mod_lt _ (by decide)) (by omega) hmax]
      congr 1
      omega
    · rename_i h0
      rw [ih (n / 10) _ (by omega) (by omega),
        uintLoop_digit maxVal (n / 10) (n % 10) ds (Nat.mod_lt _ (by decide)) (by omega) hmax]
      congr 1
      omega

theorem toDigitsCore_head (fuel n : Nat) (ds : List Char) (h : n < fuel) :
    ∃ r rest, r < 10 ∧ Nat.toDigitsCore 10 fuel n ds = Nat.digitChar r :: rest := by
  induction fuel generalizing n ds with
  | zero => omega
  | succ fuel ih =>
    rw [Nat.toDigitsCore]
    split
    · exact ⟨n % 10, ds, Nat.mod_lt _ (by decide), rfl⟩
    · exact ih (n / 10) _ (by omega)

/-- The decimal numeral of `n` starts with a digit. -/
theorem toString_head (n : Nat) :
    ∃ r rest, r < 10 ∧ (toString n).toList = Nat.digitChar r :: rest :=
  toDigitsCore_head (n + 1) n [] (by omega)

theorem toString_ne_empty (n : Nat) : toString n ≠ "" := by
  obtain ⟨r, rest, -, hd⟩ := toString_head n
  intro h0
  rw [h0] at hd
  simp at hd

/-- The parser `ParseUint` reads the decimal numeral of `n` back as `n`, as long as `n`
fits in `bitSize` bits. -/
theorem ParseUint_toString (n bitSize : Nat) (hb : bitSize ≤ 64)
    (h : n < 2 ^ (if bitSize = 0 then intSize else bitSize)) :
    ParseUint (toString n) bitSize = .ok n := by
  have hs : (toString n).toList = Nat.toDigitsCore 10 (n + 1) n [] := rfl
  have hmax : 2 ^ (if bitSize = 0 then intSize else bitSize) - 1 ≤ maxUint64 := by
    unfold maxUint64
    have : (if bitSize = 0 then intSize else bitSize) ≤ 64 := by
      split
      · decide
      · exact hb
    have := Nat.pow_le_pow_right (show 0 < 2 by decide) this
    omega
  unfold ParseUint
  rw [if_neg (toString_ne_empty n)]
  simp only
  rw [hs, uintLoop_toDigitsCore _ hmax _ _ _ (by omega) (by omega)]
  rfl

/-- The parser `Atoi` reads the decimal numeral of a natural number below `2^63` back. -/
theorem Atoi_toString (n : Nat) (h : n < 2 ^ 63) : Atoi (toString n) = .ok (n : Int) := by
  obtain ⟨r, rest, hr, hd⟩ := toString_head n
  have hmk : String.mk (Nat.digitChar r :: rest) = toString n := by
    rw [← hd]
    rfl
  unfold Atoi ParseInt
  rw [hd]
  simp only [(digitChar_not_sign r hr).1, (digitChar_not_sign r hr).2, or_self, if_false, hmk]
  rw [ParseUint_toString n 0 (by decide) (by simp [intSize]; omega)]
  have hc : (2 : Nat) ^ (intSize - 1) = 2 ^ 63 := by decide
  simp only [hc, not_false_eq_true, true_and, false_and, if_false]
  rw [if_neg (by omega)]

/-- The parser `Atoi` reads a minus sign followed by the numeral of `n` as `-n`, down to
the smallest `int`. -/
theorem Atoi_neg_toString (n : Nat) (h : n ≤ 2 ^ 63) :
    Atoi ("-" ++ toString n) = .ok (-(n : Int)) := by
  have hl : ("-" ++ toString n).toList = '-' :: (toString n).toList := by
    simp [String.toList]
  have hmk : String.mk (toString n).toList = toString n := rfl
  unfold Atoi ParseInt
  rw [hl]
  simp only [or_true, if_true, hmk]
  rw [ParseUint_toString n 0 (by decide) (by simp [intSize]; omega)]
  have hc : (2 : Nat) ^ (intSize - 1) = 2 ^ 63 := by decide
  simp only [hc, not_true_eq_false, false_and, if_false, true_and]
  rw [if_neg (by omega)]


/-- The `page_size` block in closed form. -/
theorem pageSizeOf_eq (ctx : Context) :
    pageSizeOf ctx = match Atoi (ctx.QueryParam "page_size") with
      | .ok n => if n > 0 then n else 10
      | .error _ => 10 := by
  unfold pageSizeOf
  by_cases h : ctx.QueryParam "page_size" = ""
  · simp [h, Atoi_empty]
  · simp [h]

theorem pageSizeOf_le_maxInt (ctx : Context) : pageSizeOf ctx ≤ maxInt := by
  rw [pageSizeOf_eq]
  split
  · rename_i n h
    have := (Atoi_range h).2
    split
    · exact this
    · unfold maxInt; decide
  · unfold maxInt; decide

/-- The calls and the reply of `GetAllWorkers` for an authenticated request. -/
theorem GetAllWorkers_eq (c : WorkerController) (ctx : Context) (userID : Nat)
    (hu : getUserID ctx = (userID, none)) :
    c.GetAllWorkers ctx =
      ⟨match c.repo.GetAll userID (WorkerController.filtersOf ctx) (ctx.QueryParam "sort_by")
          (ctx.QueryParam "sort_order") (pageOf ctx) (pageSizeOf ctx) with
        | .error err => .json StatusInternalServerError (.error err.msg)
        | .ok (workers, total) =>
          .json StatusOK (.workerPage workers total (pageOf ctx) (pageSizeOf ctx)),
        [.GetAll userID (WorkerController.filtersOf ctx) (ctx.QueryParam "sort_by")
          (ctx.QueryParam "sort_order") (pageOf ctx) (pageSizeOf ctx)]⟩ := by
  simp only [WorkerController.GetAllWorkers, hu]
  split <;> rfl

/-- The calls and the reply of `GetAllProjects` for an authenticated request. -/
theorem GetAllProjects_eq (c : ProjectController) (ctx : Context) (userID : Nat)
    (hu : getUserID ctx = (userID, none)) :
    c.GetAllProjects ctx =
      ⟨match c.repo.GetAll userID (ProjectController.filtersOf ctx) (ctx.QueryParam "sort_by")
          (ctx.QueryParam "sort_order") (pageOf ctx) (pageSizeOf ctx) with
        | .error err => .json StatusInternalServerError (.error err.msg)
        | .ok (projects, total) =>
          .json StatusOK (.projectPage projects total (pageOf ctx) (pageSizeOf ctx)),
        [.GetAll userID (ProjectController.filtersOf ctx) (ctx.QueryParam "sort_by")
          (ctx.QueryParam "sort_order") (pageOf ctx) (pageSizeOf ctx)]⟩ := by
  simp only [ProjectController.GetAllProjects, hu]
  split <;> rfl

/-- The calls and the reply of `GetAvailableWorkers` once the project is found. -/
theorem GetAvailableWorkers_eq (c : ProjectController) (ctx : Context)
    (userID projectId : Nat) (project : Project)
    (hu : getUserID ctx = (userID, none))
    (hid : ParseUint (ctx.Param "id") 32 = .ok projectId)
    (hp : c.repo.GetByID projectId userID = .ok project) :
    c.GetAvailableWorkers ctx =
      ⟨match c.repo.GetAllWorkers userID (pageOf ctx) (pageSizeOf ctx) with
        | .error err => .json StatusInternalServerError (.error err.msg)
        | .ok (workers, total) =>
          .json StatusOK (.workerPage
            (workers.filter (fun w => !ProjectController.isAssigned w project.Workers))
            total (pageOf ctx) (pageSizeOf ctx)),
        [.GetByID projectId userID, .GetAllWorkers userID (pageOf ctx) (pageSizeOf ctx)]⟩ := by
  simp only [ProjectController.GetAvailableWorkers, hu, hid, hp]
  split <;> simp [ProjectController.filterAvailable_eq]

/-- C7, as the code has it: the list handlers put no upper bound on the page
size. Whenever `page_size` parses (`strconv.Atoi`) to an integer `n > 0`, the
effective page size is `n` itself, and for an authenticated request `n` is the
page size in the `repo.GetAll` call of `GetAllWorkers` and of `GetAllProjects`
and in the `repo.GetAllWorkers` call of `GetAvailableWorkers`. In particular
the decimal numeral of every `n` with `0 < n < 2^63` is passed on as `n`. The
one limit is the range of `int`: the page size never exceeds `2^63 - 1`,
because a larger numeral does not parse. -/
theorem pageSize_passed_without_cap (wc : WorkerController) (pc : ProjectController)
    (ctx : Context) :
    (∀ n, Atoi (ctx.QueryParam "page_size") = .ok n → 0 < n →
      pageSizeOf ctx = n ∧
      ∀ userID, getUserID ctx = (userID, none) →
        (wc.GetAllWorkers ctx).calls
          = [.GetAll userID (WorkerController.filtersOf ctx) (ctx.QueryParam "sort_by")
              (ctx.QueryParam "sort_order") (pageOf ctx) n] ∧
        (pc.GetAllProjects ctx).calls
          = [.GetAll userID (ProjectController.filtersOf ctx) (ctx.QueryParam "sort_by")
              (ctx.QueryParam "sort_order") (pageOf ctx) n] ∧
        ∀ projectId project, ParseUint (ctx.Param "id") 32 = .ok projectId →
          pc.repo.GetByID projectId userID = .ok project →
          (pc.GetAvailableWorkers ctx).calls
            = [.GetByID projectId userID, .GetAllWorkers userID (pageOf ctx) n]) ∧
    (∀ m : Nat, 0 < m → m < 2 ^ 63 → ctx.QueryParam "page_size" = toString m →
      pageSizeOf ctx = (m : Int)) ∧
    pageSizeOf ctx ≤ maxInt := by
  refine ⟨?_, ?_, pageSizeOf_le_maxInt ctx⟩
  · intro n hparse hpos
    have hsize : pageSizeOf ctx = n := by
      simp [pageSizeOf_eq, hparse, hpos]
    refine ⟨hsize, ?_⟩
    intro userID hu
    rw [GetAllWorkers_eq wc ctx userID hu, GetAllProjects_eq pc ctx userID hu, hsize]
    refine ⟨rfl, rfl, ?_⟩
    intro projectId project hid hp
    rw [GetAvailableWorkers_eq pc ctx userID projectId project hu hid hp, hsize]
  · intro m hm hlt h
    have hpos : (0 : Int) < (m : Int) := by omega
    simp [pageSizeOf_eq, h, Atoi_toString m hlt, hpos]

theorem pageSize_passed_without_cap_witness :
    (pageSizeOf millionPageRequest = 1000000 ∧
      (workerCtl.GetAllWorkers millionPageRequest).calls
        = [.GetAll 1 (WorkerController.filtersOf millionPageRequest)
            (millionPageRequest.QueryParam "sort_by")
            (millionPageRequest.QueryParam "sort_order") (pageOf millionPageRequest) 1000000] ∧
      (projectCtl.GetAllProjects millionPageRequest).calls
        = [.GetAll 1 (ProjectController.filtersOf millionPageRequest)
            (millionPageRequest.QueryParam "sort_by")
            (millionPageRequest.QueryParam "sort_order") (pageOf millionPageRequest) 1000000] ∧
      (projectCtl.GetAvailableWorkers millionPageRequest).calls
        = [.GetByID 7 1, .GetAllWorkers 1 (pageOf millionPageRequest) 1000000]) ∧
    pageSizeOf hugePageRequest = ((9223372036854775807 : Nat) : Int) ∧
    pageSizeOf hugePageRequest ≤ maxInt :=
  have hMillion := (pageSize_passed_without_cap workerCtl projectCtl millionPageRequest).1
    1000000 (by decide) (by decide)
  have hCalls := hMillion.2 1 (by decide)
  ⟨⟨hMillion.1, hCalls.1, hCalls.2.1, hCalls.2.2 7 bridge (by decide) (by decide)⟩,
    (pageSize_passed_without_cap workerCtl projectCtl hugePageRequest).2.1
      9223372036854775807 (by decide) (by decide) (by decide),
    (pageSize_passed_without_cap workerCtl projectCtl hugePageRequest).2.2⟩

/-- C7 fails as a statement about the handlers: a request with
`page_size=1000000` makes each list handler ask the repository for pages of a
million rows, and one with `page_size=9223372036854775807`, the largest `int`,
for pages of that size. So no number below the largest `int` bounds the page
size that `GetAllWorkers`, `GetAllProjects` or `GetAvailableWorkers` pass to the
repository: the handlers enforce no bound, the only one is the width of the
integer type. -/
theorem pageSize_has_no_cap :
    maxInt = 9223372036854775807 ∧
    (WorkerCall.GetAll 1 [] "" "" 1 1000000 ∈ (workerCtl.GetAllWorkers millionPageRequest).calls ∧
      ProjectCall.GetAll 1 [] "" "" 1 1000000
        ∈ (projectCtl.GetAllProjects millionPageRequest).calls ∧
      ProjectCall.GetAllWorkers 1 1 1000000
        ∈ (projectCtl.GetAvailableWorkers millionPageRequest).calls) ∧
    (WorkerCall.GetAll 1 [] "" "" 1 9223372036854775807
        ∈ (workerCtl.GetAllWorkers hugePageRequest).calls ∧
      ProjectCall.GetAll 1 [] "" "" 1 9223372036854775807
        ∈ (projectCtl.GetAllProjects hugePageRequest).calls ∧
      ProjectCall.GetAllWorkers 1 1 9223372036854775807
        ∈ (projectCtl.GetAvailableWorkers hugePageRequest).calls) ∧
    (¬ ∃ B : Int, B < maxInt ∧ ∀ ctx u f sortBy sortOrder page pageSize,
      WorkerCall.GetAll u f sortBy sortOrder page pageSize
        ∈ (workerCtl.GetAllWorkers ctx).calls → pageSize ≤ B) ∧
    (¬ ∃ B : Int, B < maxInt ∧ ∀ ctx u f sortBy sortOrder page pageSize,
      ProjectCall.GetAll u f sortBy sortOrder page pageSize
        ∈ (projectCtl.GetAllProjects ctx).calls → pageSize ≤ B) ∧
    (¬ ∃ B : Int, B < maxInt ∧ ∀ ctx u page pageSize,
      ProjectCall.GetAllWorkers u page pageSize
        ∈ (projectCtl.GetAvailableWorkers ctx).calls → pageSize ≤ B) := by
  have hmax : maxInt = 9223372036854775807 := by decide
  refine ⟨hmax, by decide, by decide, ?_, ?_, ?_⟩
  · rintro ⟨B, hB, hall⟩
    have := hall hugePageRequest 1 [] "" "" 1 9223372036854775807 (by decide)
    omega
  · rintro ⟨B, hB, hall⟩
    have := hall hugePageRequest 1 [] "" "" 1 9223372036854775807 (by decide)
    omega
  · rintro ⟨B, hB, hall⟩
    have := hall hugePageRequest 1 1 9223372036854775807 (by decide)
    omega

/-! ## Filter maps -/

theorem Filters.get_nil (key : String) : Filters.get [] key = none := rfl

theorem Filters.get_set (m : Filters) (k : String) (v : FilterValue) (key : String) :
    (Filters.set m k v).get key = if key = k then some v else m.get key := by
  unfold Filters.set Filters.get
  induction m with
  | nil =>
    by_cases h : key = k
    · simp [h]
    · have h2 : ¬ k = key := fun e => h e.symm
      simp [h, h2]
  | cons e rest ih =>
    by_cases hk : e.1 = k
    · rw [List.filter_cons_of_neg (by simp [hk])]
      by_cases h : key = k
      · simpa [h] using ih
      · have h2 : ¬ e.1 = key := fun e2 => h (e2.symm.trans hk)
        rw [if_neg h] at ih ⊢
        rw [ih]
        simp [List.find?_cons, h2]
    · rw [List.filter_cons_of_pos (by simp [hk])]
      by_cases h : key = k
      · have h2 : ¬ e.1 = key := fun e2 => hk (e2.trans h)
        rw [if_pos h] at ih ⊢
        simpa [List.find?_cons, h2] using ih
      · rw [if_neg h] at ih ⊢
        by_cases h3 : e.1 = key
        · simp [List.find?_cons, h3]
        · simpa [List.find?_cons, h3] using ih

theorem Filters.get_str_step (m : Filters) (k value key : String) :
    (if value ≠ "" then m.set k (.str value) else m).get key
      = if key = k then (match strFilter value with
          | some v => some v
          | none => m.get key) else m.get key := by
  unfold strFilter
  by_cases hv : value = ""
  · simp [hv]
  · by_cases hk : key = k
    · simp [hv, hk, Filters.get_set]
    · simp [hv, hk, Filters.get_set]

theorem Filters.get_int_step (m : Filters) (k value key : String) :
    (if value ≠ "" then
        match Atoi value with
        | .ok n => m.set k (.int n)
        | .error _ => m
      else m).get key
      = if key = k then (match intFilter value with
          | some v => some v
          | none => m.get key) else m.get key := by
  unfold intFilter
  by_cases hv : value = ""
  · simp [hv, Atoi_empty]
  · by_cases hk : key = k
    · cases h : Atoi value <;> simp [hv, hk, Filters.get_set]
    · cases h : Atoi value <;> simp [hv, hk, Filters.get_set]

/-- Lookup in the filter map of `GetAllWorkers`, key by key. -/
theorem workerFilters_get (ctx : Context) (key : String) :
    (WorkerController.filtersOf ctx).get key =
      if key = "search" then strFilter (ctx.QueryParam "search")
      else if key = "position" then strFilter (ctx.QueryParam "position")
      else if key = "min_age" then intFilter (ctx.QueryParam "min_age")
      else if key = "max_age" then intFilter (ctx.QueryParam "max_age")
      else if key = "min_salary" then intFilter (ctx.QueryParam "min_salary")
      else if key = "max_salary" then intFilter (ctx.QueryParam "max_salary")
      else none := by
  simp only [WorkerController.filtersOf, Filters.get_int_step, Filters.get_str_step,
    Filters.get_nil]
  by_cases h1 : key = "search"
  · subst h1; simp; split <;> simp_all
  by_cases h2 : key = "position"
  · subst h2; simp; split <;> simp_all
  by_cases h3 : key = "min_age"
  · subst h3; simp; split <;> simp_all
  by_cases h4 : key = "max_age"
  · subst h4; simp; split <;> simp_all
  by_cases h5 : key = "min_salary"
  · subst h5; simp; split <;> simp_all
  by_cases h6 : key = "max_salary"
  · subst h6; simp; split <;> simp_all
  simp [h1, h2, h3, h4, h5, h6]

/-- Lookup in the filter map of `GetAllProjects`, key by key. -/
theorem projectFilters_get (ctx : Context) (key : String) :
    (ProjectController.filtersOf ctx).get key =
      if key = "name" then strFilter (ctx.QueryParam "name")
      else if key = "status" then strFilter (ctx.QueryParam "status")
      else if key = "search" then strFilter (ctx.QueryParam "search")
      else none := by
  simp only [ProjectController.filtersOf, Filters.get_str_step, Filters.get_nil]
  by_cases h1 : key = "name"
  · subst h1; simp; split <;> simp_all
  by_cases h2 : key = "status"
  · subst h2; simp; split <;> simp_all
  by_cases h3 : key = "search"
  · subst h3; simp; split <;> simp_all
  simp [h1, h2, h3]

theorem Filters.get_ne_none_of_mem (m : Filters) (e : String × FilterValue) (h : e ∈ m) :
    m.get e.1 ≠ none := by
  unfold Filters.get
  cases hf : m.find? (fun x => x.1 == e.1) with
  | some x => simp
  | none =>
    rw [List.find?_eq_none] at hf
    have := hf e h
    simp at this

/-- The filter map of `GetAllWorkers` is a function of the six filter
parameters. -/
theorem workerFilters_congr (ctx ctx2 : Context)
    (h : ∀ k ∈ workerFilterKeys, ctx.QueryParam k = ctx2.QueryParam k) :
    WorkerController.filtersOf ctx = WorkerController.filtersOf ctx2 := by
  have h1 := h "search" (by decide)
  have h2 := h "position" (by decide)
  have h3 := h "min_age" (by decide)
  have h4 := h "max_age" (by decide)
  have h5 := h "min_salary" (by decide)
  have h6 := h "max_salary" (by decide)
  simp only [WorkerController.filtersOf, h1, h2, h3, h4, h5, h6]

/-- The filter map of `GetAllProjects` is a function of the three filter
parameters. -/
theorem projectFilters_congr (ctx ctx2 : Context)
    (h : ∀ k ∈ projectFilterKeys, ctx.QueryParam k = ctx2.QueryParam k) :
    ProjectController.filtersOf ctx = ProjectController.filtersOf ctx2 := by
  have h1 := h "name" (by decide)
  have h2 := h "status" (by decide)
  have h3 := h "search" (by decide)
  simp only [ProjectController.filtersOf, h1, h2, h3]

theorem getUserID_congr (ctx ctx2 : Context) (h : ctx.values = ctx2.values) :
    getUserID ctx = getUserID ctx2 := by
  simp only [getUserID, Context.Get, h]

theorem pageOf_congr (ctx ctx2 : Context) (h : ctx.QueryParam "page" = ctx2.QueryParam "page") :
    pageOf ctx = pageOf ctx2 := by
  simp only [pageOf, h]

theorem pageSizeOf_congr (ctx ctx2 : Context)
    (h : ctx.QueryParam "page_size" = ctx2.QueryParam "page_size") :
    pageSizeOf ctx = pageSizeOf ctx2 := by
  simp only [pageSizeOf, h]

/-! ## Numeric range filters -/

/-- C8: in `GetAllWorkers`, for each of `min_age`, `max_age`, `min_salary` and
`max_salary`: when the parameter parses (`strconv.Atoi`) to `n`, the filter map
holds the key with exactly the integer `n` (so for the decimal numeral of any
`n < 2^63` it holds `n`); when the parameter is empty or does not parse, the
key is absent. What the map holds under any key depends on the
value of that key's own parameter only, so a dropped bound leaves the other
filters as they are. And an authenticated request always goes on to the one
`repo.GetAll` call with this map; when that call succeeds the reply is the
page with status 200. -/
theorem numeric_filters_parsed_or_dropped (wc : WorkerController) (ctx : Context) :
    (∀ k ∈ rangeKeys,
      (∀ n, Atoi (ctx.QueryParam k) = .ok n →
        (WorkerController.filtersOf ctx).get k = some (.int n)) ∧
      (ctx.QueryParam k = "" → (WorkerController.filtersOf ctx).get k = none) ∧
      (∀ e, Atoi (ctx.QueryParam k) = .error e →
        (WorkerController.filtersOf ctx).get k = none) ∧
      (∀ n : Nat, n < 2 ^ 63 → ctx.QueryParam k = toString n →
        (WorkerController.filtersOf ctx).get k = some (.int (n : Int)))) ∧
    (∀ (ctx2 : Context) (key : String), ctx2.QueryParam key = ctx.QueryParam key →
      (WorkerController.filtersOf ctx2).get key = (WorkerController.filtersOf ctx).get key) ∧
    (∀ userID, getUserID ctx = (userID, none) →
      (wc.GetAllWorkers ctx).calls
        = [.GetAll userID (WorkerController.filtersOf ctx) (ctx.QueryParam "sort_by")
            (ctx.QueryParam "sort_order") (pageOf ctx) (pageSizeOf ctx)] ∧
      ∀ workers total,
        wc.repo.GetAll userID (WorkerController.filtersOf ctx) (ctx.QueryParam "sort_by")
          (ctx.QueryParam "sort_order") (pageOf ctx) (pageSizeOf ctx) = .ok (workers, total) →
        (wc.GetAllWorkers ctx).reply
          = .json StatusOK (.workerPage workers total (pageOf ctx) (pageSizeOf ctx))) := by
  refine ⟨?_, ?_, ?_⟩
  · intro k hk
    have hget : (WorkerController.filtersOf ctx).get k = intFilter (ctx.QueryParam k) := by
      rw [workerFilters_get]
      simp only [rangeKeys, List.mem_cons, List.mem_singleton, List.not_mem_nil, or_false] at hk
      rcases hk with rfl | rfl | rfl | rfl <;> simp
    rw [hget]
    refine ⟨?_, ?_, ?_, ?_⟩
    · intro n h
      simp [intFilter, h]
    · intro h
      simp [intFilter, h, Atoi_empty]
    · intro e h
      simp [intFilter, h]
    · intro n hlt h
      simp [intFilter, h, Atoi_toString n hlt]
  · intro ctx2 key h
    rw [workerFilters_get, workerFilters_get]
    by_cases h1 : key = "search"
    · subst h1; simp [h]
    by_cases h2 : key = "position"
    · subst h2; simp [h]
    by_cases h3 : key = "min_age"
    · subst h3; simp [h]
    by_cases h4 : key = "max_age"
    · subst h4; simp [h]
    by_cases h5 : key = "min_salary"
    · subst h5; simp [h]
    by_cases h6 : key = "max_salary"
    · subst h6; simp [h]
    simp [h1, h2, h3, h4, h5, h6]
  · intro userID hu
    rw [GetAllWorkers_eq wc ctx userID hu]
    refine ⟨rfl, ?_⟩
    intro workers total h
    simp only [h]

theorem numeric_filters_parsed_or_dropped_witness :
    ((WorkerController.filtersOf rangeRequest).get "min_age" = some (.int 25) ∧
      (WorkerController.filtersOf rangeRequest).get "max_salary" = some (.int (-1)) ∧
      (WorkerController.filtersOf rangeRequest).get "min_salary" = none ∧
      (WorkerController.filtersOf rangeRequest).get "max_age" = none ∧
      (WorkerController.filtersOf rangeRequest).get "min_age"
        = some (.int ((25 : Nat) : Int))) ∧
    ((WorkerController.filtersOf rangeRequestFixed).get "min_age"
        = (WorkerController.filtersOf rangeRequest).get "min_age" ∧
      (WorkerController.filtersOf rangeRequestFixed).get "position"
        = (WorkerController.filtersOf rangeRequest).get "position") ∧
    ((workerCtl.GetAllWorkers rangeRequest).calls
        = [.GetAll 1 (WorkerController.filtersOf rangeRequest)
            (rangeRequest.QueryParam "sort_by") (rangeRequest.QueryParam "sort_order")
            (pageOf rangeRequest) (pageSizeOf rangeRequest)] ∧
      (workerCtl.GetAllWorkers rangeRequest).reply
        = .json StatusOK (.workerPage [ana, bob, cid] 3
            (pageOf rangeRequest) (pageSizeOf rangeRequest))) :=
  have h := numeric_filters_parsed_or_dropped workerCtl rangeRequest
  ⟨⟨(h.1 "min_age" (by decide)).1 25 (by decide),
      (h.1 "max_salary" (by decide)).1 (-1) (by decide),
      (h.1 "min_salary" (by decide)).2.1 (by decide),
      (h.1 "max_age" (by decide)).2.2.1 .ErrSyntax (by decide),
      (h.1 "min_age" (by decide)).2.2.2 25 (by decide) (by decide)⟩,
    ⟨h.2.1 rangeRequestFixed "min_age" (by decide),
      h.2.1 rangeRequestFixed "position" (by decide)⟩,
    ⟨(h.2.2 1 (by decide)).1, (h.2.2 1 (by decide)).2 [ana, bob, cid] 3 (by decide)⟩⟩

/-! ## Unknown query parameters -/

/-- C9: the filter map of `GetAllWorkers` has keys among `search`, `position`,
`min_age`, `max_age`, `min_salary`, `max_salary` only, and the one of
`GetAllProjects` among `name`, `status`, `search` only. Two requests with the
same context values that agree on the parameters a list handler reads (its
filter keys, `sort_by`, `sort_order`, `page`, `page_size`) get the same result
from it, the same repository call and the same reply, whatever other
parameters they carry. -/
theorem unknown_query_keys_ignored (wc : WorkerController) (pc : ProjectController)
    (ctx ctx2 : Context) :
    (∀ e ∈ WorkerController.filtersOf ctx, e.1 ∈ workerFilterKeys) ∧
    (∀ e ∈ ProjectController.filtersOf ctx, e.1 ∈ projectFilterKeys) ∧
    (ctx.values = ctx2.values → (∀ k ∈ workerQueryKeys, ctx.QueryParam k = ctx2.QueryParam k) →
      wc.GetAllWorkers ctx = wc.GetAllWorkers ctx2) ∧
    (ctx.values = ctx2.values → (∀ k ∈ projectQueryKeys, ctx.QueryParam k = ctx2.QueryParam k) →
      pc.GetAllProjects ctx = pc.GetAllProjects ctx2) := by
  refine ⟨?_, ?_, ?_, ?_⟩
  · intro e he
    have h := Filters.get_ne_none_of_mem _ e he
    rw [workerFilters_get] at h
    by_contra hne
    simp only [workerFilterKeys, List.mem_cons, List.mem_singleton, List.not_mem_nil, or_false,
      not_or] at hne
    obtain ⟨h1, h2, h3, h4, h5, h6⟩ := hne
    simp [h1, h2, h3, h4, h5, h6] at h
  · intro e he
    have h := Filters.get_ne_none_of_mem _ e he
    rw [projectFilters_get] at h
    by_contra hne
    simp only [projectFilterKeys, List.mem_cons, List.mem_singleton, List.not_mem_nil, or_false,
      not_or] at hne
    obtain ⟨h1, h2, h3⟩ := hne
    simp [h1, h2, h3] at h
  · intro hv hq
    have hf := workerFilters_congr ctx ctx2
      (fun k hk => hq k (by
        simp only [workerFilterKeys, List.mem_cons, List.mem_singleton, List.not_mem_nil,
          or_false] at hk
        rcases hk with rfl | rfl | rfl | rfl | rfl | rfl <;> decide))
    simp only [WorkerController.GetAllWorkers, getUserID_congr ctx ctx2 hv, hf,
      hq "sort_by" (by decide), hq "sort_order" (by decide),
      pageOf_congr ctx ctx2 (hq "page" (by decide)),
      pageSizeOf_congr ctx ctx2 (hq "page_size" (by decide))]
  · intro hv hq
    have hf := projectFilters_congr ctx ctx2
      (fun k hk => hq k (by
        simp only [projectFilterKeys, List.mem_cons, List.mem_singleton, List.not_mem_nil,
          or_false] at hk
        rcases hk with rfl | rfl | rfl <;> decide))
    simp only [ProjectController.GetAllProjects, getUserID_congr ctx ctx2 hv, hf,
      hq "sort_by" (by decide), hq "sort_order" (by decide),
      pageOf_congr ctx ctx2 (hq "page" (by decide)),
      pageSizeOf_congr ctx ctx2 (hq "page_size" (by decide))]

theorem unknown_query_keys_ignored_witness :
    ((("position", FilterValue.str "Mason") : String × FilterValue).1 ∈ workerFilterKeys) ∧
    ((("status", FilterValue.str "active") : String × FilterValue).1 ∈ projectFilterKeys) ∧
    workerCtl.GetAllWorkers noisyRequest = workerCtl.GetAllWorkers plainRequest ∧
    projectCtl.GetAllProjects noisyRequest = projectCtl.GetAllProjects plainRequest ∧
    workerCtl.GetAllWorkers noisyRequest
      = ⟨.json 200 (.workerPage [bob] 3 2 1),
          [.GetAll 1 [("position", .str "Mason")] "" "" 2 1]⟩ ∧
    projectCtl.GetAllProjects noisyRequest
      = ⟨.json 200 (.projectPage [depot] 2 2 1),
          [.GetAll 1 [("status", .str "active")] "" "" 2 1]⟩ :=
  have h := unknown_query_keys_ignored workerCtl projectCtl noisyRequest plainRequest
  ⟨h.1 ("position", .str "Mason") (by decide), h.2.1 ("status", .str "active") (by decide),
    h.2.2.1 (by decide) (by decide), h.2.2.2 (by decide) (by decide), by decide, by decide⟩

/-! ## The total of the available workers -/

/-- C10, as the code has it: when `GetAvailableWorkers` finds the project and
`repo.GetAllWorkers` returns a page with a total, the reply carries that total
unchanged, next to the page filtered against the project's workers. The
total is the one of the set the repository paginates for the tenant (the call
is not given the project), so two projects of a tenant get the same total for
the same page request, however many workers each has assigned. -/
theorem available_total_is_repository_total (c : ProjectController) (ctx ctx2 : Context)
    (userID projectId projectId2 : Nat) (project project2 : Project)
    (workers : List Worker) (total : Int)
    (hu : getUserID ctx = (userID, none))
    (hid : ParseUint (ctx.Param "id") 32 = .ok projectId)
    (hp : c.repo.GetByID projectId userID = .ok project)
    (hw : c.repo.GetAllWorkers userID (pageOf ctx) (pageSizeOf ctx) = .ok (workers, total))
    (hv : ctx2.values = ctx.values) (hq : ctx2.query = ctx.query)
    (hid2 : ParseUint (ctx2.Param "id") 32 = .ok projectId2)
    (hp2 : c.repo.GetByID projectId2 userID = .ok project2) :
    (c.GetAvailableWorkers ctx).reply
      = .json StatusOK (.workerPage
          (workers.filter (fun w => !ProjectController.isAssigned w project.Workers))
          total (pageOf ctx) (pageSizeOf ctx)) ∧
    (c.GetAvailableWorkers ctx2).reply
      = .json StatusOK (.workerPage
          (workers.filter (fun w => !ProjectController.isAssigned w project2.Workers))
          total (pageOf ctx) (pageSizeOf ctx)) := by
  have hu2 : getUserID ctx2 = (userID, none) := by
    rw [getUserID_congr ctx2 ctx hv, hu]
  have hpage : pageOf ctx2 = pageOf ctx :=
    pageOf_congr ctx2 ctx (by simp only [Context.QueryParam, hq])
  have hsize : pageSizeOf ctx2 = pageSizeOf ctx :=
    pageSizeOf_congr ctx2 ctx (by simp only [Context.QueryParam, hq])
  rw [GetAvailableWorkers_eq c ctx userID projectId project hu hid hp,
    GetAvailableWorkers_eq c ctx2 userID projectId2 project2 hu2 hid2 hp2, hpage, hsize]
  simp only [hw, and_self]

theorem available_total_is_repository_total_witness :
    (projectCtl.GetAvailableWorkers (availableRequest "7")).reply
      = .json StatusOK (.workerPage
          ([ana, bob, cid].filter (fun w => !ProjectController.isAssigned w bridge.Workers))
          3 (pageOf (availableRequest "7")) (pageSizeOf (availableRequest "7"))) ∧
    (projectCtl.GetAvailableWorkers (availableRequest "8")).reply
      = .json StatusOK (.workerPage
          ([ana, bob, cid].filter (fun w => !ProjectController.isAssigned w depot.Workers))
          3 (pageOf (availableRequest "7")) (pageSizeOf (availableRequest "7"))) :=
  available_total_is_repository_total projectCtl (availableRequest "7") (availableRequest "8")
    1 7 8 bridge depot [ana, bob, cid] 3 (by decide) (by decide) (by decide) (by decide)
    (by decide) (by decide) (by decide) (by decide)

/-- C10 fails as stated: tenant 1 owns three workers, and project 7 has one of
them assigned. The first page of the available workers of project 7 lists the
two others, and the total next to them is 3: it counts the assigned worker,
where the set difference has 2 elements. Project 8, with nobody assigned,
gets the same total 3, so the total is not the number of the tenant's workers
minus those assigned, whatever that number is. -/
theorem available_total_counts_assigned :
    (projectCtl.GetAvailableWorkers (availableRequest "7")).reply
      = .json 200 (.workerPage [bob, cid] 3 1 10) ∧
    site.workersOf 1 = [ana, bob, cid] ∧
    bridge.Workers = [ana] ∧
    site.unassignedWorkers 1 bridge = [bob, cid] ∧
    (3 : Int) ≠ ((site.unassignedWorkers 1 bridge).length : Int) ∧
    (3 : Int) ≠ ((site.workersOf 1).length : Int) - (bridge.Workers.length : Int) ∧
    (projectCtl.GetAvailableWorkers (availableRequest "8")).reply
      = .json 200 (.workerPage [ana, bob, cid] 3 1 10) ∧
    ¬ ∃ n : Int, (3 : Int) = n - (bridge.Workers.length : Int) ∧
      (3 : Int) = n - (depot.Workers.length : Int) := by
  refine ⟨by decide, by decide, by decide, by decide, by decide, by decide, by decide, ?_⟩
  rintro ⟨n, h1, h2⟩
  simp only [bridge, depot, List.length_cons, List.length_nil] at h1 h2
  omega

/-! ## Available workers of a project that is not found -/

/-- C11: for an authenticated request whose path id parses, when `repo.GetByID`
does not return the project for the tenant, whatever the error,
`GetAvailableWorkers` answers with status 404 and the body
"Project not found"; the only repository call it made is that `GetByID`, so
`repo.GetAllWorkers` is not called and no worker is returned. -/
theorem available_workers_of_missing_project (c : ProjectController) (ctx : Context)
    (userID projectId : Nat) (err : GoError)
    (hu : getUserID ctx = (userID, none))
    (hid : ParseUint (ctx.Param "id") 32 = .ok projectId)
    (hg : c.repo.GetByID projectId userID = .error err) :
    c.GetAvailableWorkers ctx
      = ⟨.json StatusNotFound (.error "Project not found"), [.GetByID projectId userID]⟩ ∧
    (∀ u page pageSize,
      ProjectCall.GetAllWorkers u page pageSize ∉ (c.GetAvailableWorkers ctx).calls) ∧
    (∀ code data total page pageSize,
      (c.GetAvailableWorkers ctx).reply ≠ .json code (.workerPage data total page pageSize)) := by
  have h : c.GetAvailableWorkers ctx
      = ⟨.json StatusNotFound (.error "Project not found"), [.GetByID projectId userID]⟩ := by
    simp only [ProjectController.GetAvailableWorkers, hu, hid, hg]
  rw [h]
  refine ⟨rfl, ?_, ?_⟩
  · intro u page pageSize hmem
    simp at hmem
  · intro code data total page pageSize hEq
    simp at hEq

theorem available_workers_of_missing_project_witness :
    (projectCtl.GetAvailableWorkers (availableRequest "9")
        = ⟨.json StatusNotFound (.error "Project not found"), [.GetByID 9 1]⟩ ∧
      (∀ u page pageSize, ProjectCall.GetAllWorkers u page pageSize
        ∉ (projectCtl.GetAvailableWorkers (availableRequest "9")).calls) ∧
      (∀ code data total page pageSize,
        (projectCtl.GetAvailableWorkers (availableRequest "9")).reply
          ≠ .json code (.workerPage data total page pageSize))) ∧
    (projectCtl.GetAvailableWorkers (availableRequest "5")
        = ⟨.json StatusNotFound (.error "Project not found"), [.GetByID 5 1]⟩ ∧
      (∀ u page pageSize, ProjectCall.GetAllWorkers u page pageSize
        ∉ (projectCtl.GetAvailableWorkers (availableRequest "5")).calls) ∧
      (∀ code data total page pageSize,
        (projectCtl.GetAvailableWorkers (availableRequest "5")).reply
          ≠ .json code (.workerPage data total page pageSize))) ∧
    (downProjectCtl.GetAvailableWorkers (availableRequest "7")
        = ⟨.json StatusNotFound (.error "Project not found"), [.GetByID 7 1]⟩ ∧
      (∀ u page pageSize, ProjectCall.GetAllWorkers u page pageSize
        ∉ (downProjectCtl.GetAvailableWorkers (availableRequest "7")).calls) ∧
      (∀ code data total page pageSize,
        (downProjectCtl.GetAvailableWorkers (availableRequest "7")).reply
          ≠ .json code (.workerPage data total page pageSize))) :=
  ⟨available_workers_of_missing_project projectCtl (availableRequest "9") 1 9 recordNotFound
      (by decide) (by decide) (by decide),
    available_workers_of_missing_project projectCtl (availableRequest "5") 1 5 recordNotFound
      (by decide) (by decide) (by decide),
    available_workers_of_missing_project downProjectCtl (availableRequest "7") 1 7 outage
      (by decide) (by decide) (by decide)⟩

/-! ## Requests without a tenant -/

theorem getUserID_of_uint (ctx : Context) (n : Nat)
    (h : ctx.Get "user_id" = some (.uintV n)) : getUserID ctx = (n, none) := by
  simp only [getUserID, h]

theorem getUserID_of_not_uint (ctx : Context)
    (h : ∀ n, ctx.Get "user_id" ≠ some (.uintV n)) :
    getUserID ctx = (0, some notAuthenticated) := by
  unfold getUserID
  split
  · rename_i n hn
    exact absurd hn (h n)
  · rfl

/-- C12: `getUserID` returns `(id, nil)` exactly when the context holds the
`uint` value `id` under `"user_id"`; when the key is absent or holds a value of
another type it returns 0 and the Unauthorized (401) error, and then every
handler of the worker and project controllers returns that error and makes no
repository call. -/
theorem unauthenticated_requests_are_refused (wc : WorkerController)
    (pc : ProjectController) (ctx : Context) :
    (∀ id, getUserID ctx = (id, none) ↔ ctx.Get "user_id" = some (.uintV id)) ∧
    ((∀ n, ctx.Get "user_id" ≠ some (.uintV n)) →
      getUserID ctx = (0, some (.httpError StatusUnauthorized "User not authenticated"))) ∧
    (ctx.Get "user_id" = none →
      getUserID ctx = (0, some (.httpError StatusUnauthorized "User not authenticated"))) ∧
    ((∀ n, ctx.Get "user_id" ≠ some (.uintV n)) →
      (wc.GetAllWorkers ctx = ⟨notAuthenticated, []⟩ ∧
        wc.GetWorker ctx = ⟨notAuthenticated, []⟩ ∧
        wc.CreateWorker ctx = ⟨notAuthenticated, []⟩ ∧
        wc.UpdateWorker ctx = ⟨notAuthenticated, []⟩ ∧
        wc.DeleteWorker ctx = ⟨notAuthenticated, []⟩ ∧
        wc.AddToProject ctx = ⟨notAuthenticated, []⟩ ∧
        wc.RemoveFromProject ctx = ⟨notAuthenticated, []⟩) ∧
      (pc.GetAllProjects ctx = ⟨notAuthenticated, []⟩ ∧
        pc.GetProject ctx = ⟨notAuthenticated, []⟩ ∧
        pc.CreateProject ctx = ⟨notAuthenticated, []⟩ ∧
        pc.UpdateProject ctx = ⟨notAuthenticated, []⟩ ∧
        pc.DeleteProject ctx = ⟨notAuthenticated, []⟩ ∧
        pc.AssignWorkerToProject ctx = ⟨notAuthenticated, []⟩ ∧
        pc.GetAvailableWorkers ctx = ⟨notAuthenticated, []⟩ ∧
        pc.UnassignWorkerFromProject ctx = ⟨notAuthenticated, []⟩)) := by
  refine ⟨?_, ?_, ?_, ?_⟩
  · intro id
    constructor
    · intro h
      by_cases hex : ∃ n, ctx.Get "user_id" = some (.uintV n)
      · obtain ⟨n, hn⟩ := hex
        rw [getUserID_of_uint ctx n hn] at h
        simp only [Prod.mk.injEq, and_true] at h
        rw [hn, h]
      · have hno := getUserID_of_not_uint ctx (fun n hn => hex ⟨n, hn⟩)
        rw [hno] at h
        simp at h
    · exact getUserID_of_uint ctx id
  · intro h
    exact getUserID_of_not_uint ctx h
  · intro h
    exact getUserID_of_not_uint ctx (fun n hn => by rw [h] at hn; simp at hn)
  · intro h
    have hu := getUserID_of_not_uint ctx h
    refine ⟨⟨?_, ?_, ?_, ?_, ?_, ?_, ?_⟩, ⟨?_, ?_, ?_, ?_, ?_, ?_, ?_, ?_⟩⟩
    · simp only [WorkerController.GetAllWorkers, hu]
    · simp only [WorkerController.GetWorker, hu]
    · simp only [WorkerController.CreateWorker, hu]
    · simp only [WorkerController.UpdateWorker, hu]
    · simp only [WorkerController.DeleteWorker, hu]
    · simp only [WorkerController.AddToProject, hu]
    · simp only [WorkerController.RemoveFromProject, hu]
    · simp only [ProjectController.GetAllProjects, hu]
    · simp only [ProjectController.GetProject, hu]
    · simp only [ProjectController.CreateProject, hu]
    · simp only [ProjectController.UpdateProject, hu]
    · simp only [ProjectController.DeleteProject, hu]
    · simp only [ProjectController.AssignWorkerToProject, hu]
    · simp only [ProjectController.GetAvailableWorkers, hu]
    · simp only [ProjectController.UnassignWorkerFromProject, hu]

theorem unauthenticated_requests_are_refused_witness :
    getUserID signedRequest = (1, none) ∧
    getUserID anonymousRequest = (0, some (.httpError 401 "User not authenticated")) ∧
    getUserID mistypedRequest = (0, some (.httpError 401 "User not authenticated")) ∧
    ((workerCtl.GetAllWorkers anonymousRequest = ⟨notAuthenticated, []⟩ ∧
        workerCtl.GetWorker anonymousRequest = ⟨notAuthenticated, []⟩ ∧
        workerCtl.CreateWorker anonymousRequest = ⟨notAuthenticated, []⟩ ∧
        workerCtl.UpdateWorker anonymousRequest = ⟨notAuthenticated, []⟩ ∧
        workerCtl.DeleteWorker anonymousRequest = ⟨notAuthenticated, []⟩ ∧
        workerCtl.AddToProject anonymousRequest = ⟨notAuthenticated, []⟩ ∧
        workerCtl.RemoveFromProject anonymousRequest = ⟨notAuthenticated, []⟩) ∧
      (projectCtl.GetAllProjects anonymousRequest = ⟨notAuthenticated, []⟩ ∧
        projectCtl.GetProject anonymousRequest = ⟨notAuthenticated, []⟩ ∧
        projectCtl.CreateProject anonymousRequest = ⟨notAuthenticated, []⟩ ∧
        projectCtl.UpdateProject anonymousRequest = ⟨notAuthenticated, []⟩ ∧
        projectCtl.DeleteProject anonymousRequest = ⟨notAuthenticated, []⟩ ∧
        projectCtl.AssignWorkerToProject anonymousRequest = ⟨notAuthenticated, []⟩ ∧
        projectCtl.GetAvailableWorkers anonymousRequest = ⟨notAuthenticated, []⟩ ∧
        projectCtl.UnassignWorkerFromProject anonymousRequest = ⟨notAuthenticated, []⟩)) ∧
    ((workerCtl.GetAllWorkers mistypedRequest = ⟨notAuthenticated, []⟩ ∧
        workerCtl.GetWorker mistypedRequest = ⟨notAuthenticated, []⟩ ∧
        workerCtl.CreateWorker mistypedRequest = ⟨notAuthenticated, []⟩ ∧
        workerCtl.UpdateWorker mistypedRequest = ⟨notAuthenticated, []⟩ ∧
        workerCtl.DeleteWorker mistypedRequest = ⟨notAuthenticated, []⟩ ∧
        workerCtl.AddToProject mistypedRequest = ⟨notAuthenticated, []⟩ ∧
        workerCtl.RemoveFromProject mistypedRequest = ⟨notAuthenticated, []⟩) ∧
      (projectCtl.GetAllProjects mistypedRequest = ⟨notAuthenticated, []⟩ ∧
        projectCtl.GetProject mistypedRequest = ⟨notAuthenticated, []⟩ ∧
        projectCtl.CreateProject mistypedRequest = ⟨notAuthenticated, []⟩ ∧
        projectCtl.UpdateProject mistypedRequest = ⟨notAuthenticated, []⟩ ∧
        projectCtl.DeleteProject mistypedRequest = ⟨notAuthenticated, []⟩ ∧
        projectCtl.AssignWorkerToProject mistypedRequest = ⟨notAuthenticated, []⟩ ∧
        projectCtl.GetAvailableWorkers mistypedRequest = ⟨notAuthenticated, []⟩ ∧
        projectCtl.UnassignWorkerFromProject mistypedRequest = ⟨notAuthenticated, []⟩)) ∧
    (workerCtl.GetWorker signedRequest).calls = [.GetByID 7 1] := by
  have hAbsent : anonymousRequest.Get "user_id" = none := by decide
  have hInt : mistypedRequest.Get "user_id" = some (.intV 1) := by decide
  have hA : ∀ n, anonymousRequest.Get "user_id" ≠ some (.uintV n) := by
    intro n h
    rw [hAbsent] at h
    cases h
  have hM : ∀ n, mistypedRequest.Get "user_id" ≠ some (.uintV n) := by
    intro n h
    rw [hInt] at h
    cases h
  exact ⟨((unauthenticated_requests_are_refused workerCtl projectCtl signedRequest).1 1).mpr
      (by decide),
    (unauthenticated_requests_are_refused workerCtl projectCtl anonymousRequest).2.2.1 hAbsent,
    (unauthenticated_requests_are_refused workerCtl projectCtl mistypedRequest).2.1 hM,
    (unauthenticated_requests_are_refused workerCtl projectCtl anonymousRequest).2.2.2 hA,
    (unauthenticated_requests_are_refused workerCtl projectCtl mistypedRequest).2.2.2 hM,
    by decide⟩

/-! ## Page, then filter -/

theorem isAssigned_eq_decide (w : Worker) (project : Project) :
    (!ProjectController.isAssigned w project.Workers) = decide (w.ID ∉ project.assignedIDs) := by
  have h := ProjectController.isAssigned_eq_true_iff w project.Workers
  by_cases hm : w.ID ∈ project.assignedIDs
  · have hex : ∃ a ∈ project.Workers, w.ID = a.ID := by
      simp only [Project.assignedIDs, List.mem_map] at hm
      obtain ⟨a, ha, he⟩ := hm
      exact ⟨a, ha, he.symm⟩
    simp [h.mpr hex, hm]
  · have hno : ¬ ProjectController.isAssigned w project.Workers = true := by
      intro ht
      obtain ⟨a, ha, he⟩ := h.mp ht
      exact hm (by
        simp only [Project.assignedIDs, List.mem_map]
        exact ⟨a, ha, he.symm⟩)
    simp [hno, hm]

/-- C13: when `GetAvailableWorkers` finds the project and `repo.GetAllWorkers`
returns the page `workers`, the list in the reply is exactly `workers` filtered
by "ID not among the IDs of `project.Workers`": a sublist of the page, in the
page's order, in which every worker that is kept occurs as often as in the
page. It is never longer than the page, it is the whole page when no worker of
the page is assigned, and it is strictly shorter as soon as some worker of the
page is assigned. -/
theorem available_workers_filter_the_page (c : ProjectController) (ctx : Context)
    (userID projectId : Nat) (project : Project) (workers : List Worker) (total : Int)
    (hu : getUserID ctx = (userID, none))
    (hid : ParseUint (ctx.Param "id") 32 = .ok projectId)
    (hp : c.repo.GetByID projectId userID = .ok project)
    (hw : c.repo.GetAllWorkers userID (pageOf ctx) (pageSizeOf ctx) = .ok (workers, total)) :
    ∃ data,
      (c.GetAvailableWorkers ctx).reply
        = .json StatusOK (.workerPage data total (pageOf ctx) (pageSizeOf ctx)) ∧
      data = workers.filter (fun w => decide (w.ID ∉ project.assignedIDs)) ∧
      data.Sublist workers ∧
      (∀ w, w.ID ∉ project.assignedIDs → data.count w = workers.count w) ∧
      (∀ w, w.ID ∈ project.assignedIDs → w ∉ data) ∧
      data.length ≤ workers.length ∧
      ((∀ w ∈ workers, w.ID ∉ project.assignedIDs) →
        data = workers ∧ data.length = workers.length) ∧
      ((∃ w ∈ workers, w.ID ∈ project.assignedIDs) → data.length < workers.length) := by
  refine ⟨workers.filter (fun w => decide (w.ID ∉ project.assignedIDs)), ?_, rfl,
    List.filter_sublist _, ?_, ?_, List.length_filter_le _ _, ?_, ?_⟩
  · rw [GetAvailableWorkers_eq c ctx userID projectId project hu hid hp]
    simp only [hw]
    congr 2
    exact List.filter_congr (fun w _ => isAssigned_eq_decide w project)
  · intro w hw0
    exact List.count_filter (by simpa using hw0)
  · intro w hw1 hmem
    simp only [List.mem_filter, decide_eq_true_eq] at hmem
    exact hmem.2 hw1
  · intro hall
    have : workers.filter (fun w => decide (w.ID ∉ project.assignedIDs)) = workers :=
      List.filter_eq_self.mpr (fun w hwm => by simpa using hall w hwm)
    rw [this]
    exact ⟨rfl, rfl⟩
  · rintro ⟨w, hwm, hin⟩
    exact List.length_filter_lt_length_iff_exists.mpr ⟨w, hwm, by simpa using hin⟩

theorem available_workers_filter_the_page_witness :
    (∃ data,
      (projectCtl.GetAvailableWorkers (availableRequest "7")).reply
        = .json StatusOK (.workerPage data 3 (pageOf (availableRequest "7"))
            (pageSizeOf (availableRequest "7"))) ∧
      data = [bob, cid] ∧ data.count bob = [ana, bob, cid].count bob ∧ ana ∉ data ∧
      data.length < [ana, bob, cid].length) ∧
    (∃ data,
      (projectCtl.GetAvailableWorkers (availableRequest "8")).reply
        = .json StatusOK (.workerPage data 3 (pageOf (availableRequest "8"))
            (pageSizeOf (availableRequest "8"))) ∧
      data = [ana, bob, cid] ∧ data.length = [ana, bob, cid].length) := by
  obtain ⟨d7, hreply7, hdata7, -, hcount7, hout7, -, -, hless7⟩ :=
    available_workers_filter_the_page projectCtl (availableRequest "7") 1 7 bridge
      [ana, bob, cid] 3 (by decide) (by decide) (by decide) (by decide)
  obtain ⟨d8, hreply8, -, -, -, -, -, hsame8, -⟩ :=
    available_workers_filter_the_page projectCtl (availableRequest "8") 1 8 depot
      [ana, bob, cid] 3 (by decide) (by decide) (by decide) (by decide)
  refine ⟨⟨d7, hreply7, ?_, hcount7 bob (by decide), hout7 ana (by decide),
      hless7 ⟨ana, by decide, by decide⟩⟩,
    ⟨d8, hreply8, (hsame8 (by decide)).1, (hsame8 (by decide)).2⟩⟩
  rw [hdata7]
  decide

end Worksite
